import Mathlib

/-!
# Verification of the openclast-wallet custodial wallet service

Shallow embedding of the wallet service (`src/wallet/service.ts`), its stores
(`pending-store.ts`, the daily-spend store, the audit log `audit.ts`) and the
transaction builder (`tx-builder.ts`).  External effects (viem address
validation, keychain reads, RPC calls, signing, clock, UUID generation) are
supplied through an explicit environment record; each public operation is a
pure function from configuration, environment and service state to a result
together with the successor state and the list of raw transactions handed to
`sendRawTransaction` during the call.
-/

namespace OpenclastWallet

/-! ## JavaScript runtime primitives used by the source -/

/-- Whitespace recognised by `String.prototype.trim` (ASCII subset that can
occur in the configuration strings handled here). -/
def jsWhitespace (c : Char) : Bool :=
  c = ' ' || c = '\t' || c = '\n' || c = '\r' || c = '\x0b' || c = '\x0c'

/-- Models `String.prototype.trim`. -/
def jsTrim (s : String) : String :=
  String.mk (((s.data.dropWhile jsWhitespace).reverse.dropWhile jsWhitespace).reverse)

/-- Models `String.prototype.toLowerCase` on the ASCII strings (hex addresses)
handled by the service. -/
def jsToLower (s : String) : String :=
  String.mk (s.data.map Char.toLower)

/-- Value of a non-empty list of decimal digits, `none` if a non-digit occurs. -/
def decDigitsVal? (cs : List Char) : Option Nat :=
  if cs.isEmpty then none
  else cs.foldl
    (fun acc c => acc.bind fun n => if c.isDigit then some (10 * n + (c.toNat - 48)) else none)
    (some 0)

/-- Models the JavaScript `BigInt(string)` conversion on decimal string inputs
(the form used by the wallet configuration); `none` models the thrown
`SyntaxError`.  A blank string converts to `0n`. -/
def jsBigInt? (s : String) : Option Int :=
  match (jsTrim s).data with
  | [] => some 0
  | c :: rest =>
    if c = '-' then (decDigitsVal? rest).map (fun n => -(n : Int))
    else if c = '+' then (decDigitsVal? rest).map (fun n => (n : Int))
    else (decDigitsVal? (c :: rest)).map (fun n => (n : Int))

/-! ## Data model (`types.ts`) -/

/-- `PendingTx.status` values. -/
inductive TxStatus where
  | pending
  | approved
  | rejected
  | sent
  | failed
deriving DecidableEq, Repr

/-- String form of a status, as interpolated into error messages. -/
def statusText : TxStatus → String
  | .pending => "pending"
  | .approved => "approved"
  | .rejected => "rejected"
  | .sent => "sent"
  | .failed => "failed"

/-- A status is terminal when it is `sent`, `failed` or `rejected`. -/
def TxStatus.isTerminal : TxStatus → Bool
  | .sent => true
  | .failed => true
  | .rejected => true
  | _ => false

/-- `PendingTx` record.  Wei amounts and gas/fee fields are decimal strings in
the source; they are modelled by their integer values (the source converts
them with `BigInt` before use). -/
structure PendingTx where
  txId : String
  walletId : String
  chainId : Nat
  fromAddr : String
  toAddr : String
  valueWei : Int
  data : Option String := none
  gasLimit : Option Int := none
  gasPrice : Option Int := none
  maxFeePerGas : Option Int := none
  maxPriorityFeePerGas : Option Int := none
  nonce : Option Nat := none
  createdAt : Int
  status : TxStatus
  txHash : Option String := none
  error : Option String := none
deriving DecidableEq, Repr

/-- The partial records the service passes to `pendingStore.update`: only the
`status`, `txHash` and `error` fields are ever patched. -/
structure Patch where
  status : Option TxStatus := none
  txHash : Option String := none
  error : Option String := none
deriving DecidableEq, Repr

/-- Spread-merge `{ ...item, ...patch }` restricted to the patched fields. -/
def applyPatch (p : PendingTx) (q : Patch) : PendingTx :=
  { p with
    status := q.status.getD p.status
    txHash := match q.txHash with | some h => some h | none => p.txHash
    error := match q.error with | some e => some e | none => p.error }

/-! ## Pending store (`pending-store.ts`), on the in-file list of records -/

/-- `pendingStore.get`: first record with the given id. -/
def pendingGet (items : List PendingTx) (txId : String) : Option PendingTx :=
  items.find? (fun t => t.txId = txId)

/-- `pendingStore.add`: idempotent on `txId`. -/
def pendingAdd (items : List PendingTx) (tx : PendingTx) : List PendingTx :=
  if items.any (fun t => t.txId = tx.txId) then items else items ++ [tx]

/-- `pendingStore.update`: read-merge-write of the first matching record;
no change when the id is absent. -/
def pendingUpdate (items : List PendingTx) (txId : String) (q : Patch) : List PendingTx :=
  match items.findIdx? (fun t => t.txId = txId) with
  | none => items
  | some j =>
    match items[j]? with
    | none => items
    | some rec => items.set j (applyPatch rec q)

/-! ## Daily-spend store (second half of `token-balances.ts`) -/

/-- `DailySpendRecord`; `totalWei` is a decimal string in the file, modelled by
its value. -/
structure DailySpendRecord where
  date : String
  totalWei : Int
deriving DecidableEq, Repr

/-- `dailySpendStore.getTotalForDate`. -/
def dayTotal (date : String) (r : DailySpendRecord) : Int :=
  if r.date = date then r.totalWei else 0

/-- `dailySpendStore.addSpend`: adds when the stored date matches, otherwise
resets the record to the new date and value. -/
def addSpend (date : String) (v : Int) (r : DailySpendRecord) : DailySpendRecord :=
  { date := date, totalWei := if r.date = date then r.totalWei + v else v }

/-! ## Audit log (`audit.ts`) -/

/-- `AuditEntry`; every field but `action` is optional (`atIso` models the
`at` timestamp field, renamed because `at` is reserved in Lean). -/
structure AuditEntry where
  atIso : Option String := none
  action : String
  txId : Option String := none
  walletId : Option String := none
  chainId : Option Nat := none
  fromAddr : Option String := none
  toAddr : Option String := none
  valueWei : Option Int := none
  txHash : Option String := none
  error : Option String := none
  tokenAddress : Option String := none
  spender : Option String := none
  amountWei : Option Int := none
deriving DecidableEq, Repr

/-- `AuditLogFilter`. -/
structure AuditLogFilter where
  walletId : Option String := none
  chainId : Option Nat := none
  action : Option String := none
  limit : Option Int := none
deriving DecidableEq, Repr

/-- JavaScript truthiness of an optional string (`undefined` and `""` are
falsy). -/
def truthyStr : Option String → Option String
  | some s => if s = "" then none else some s
  | none => none

/-- `list.slice(0, n)` for an integer `n` (negative `n` counts from the end). -/
def jsSlice0 {α : Type} (n : Int) (l : List α) : List α :=
  if 0 ≤ n then l.take n.toNat else l.take (l.length - (-n).toNat)

/-- The walletId / chainId / action filtering stage of
`createAuditLog(...).query`. -/
def auditFiltered (log : List AuditEntry) (filter : Option AuditLogFilter) : List AuditEntry :=
  let e1 := match truthyStr (filter.bind (·.walletId)) with
    | some w => log.filter (fun (e : AuditEntry) => e.walletId = some w)
    | none => log
  let e2 := match filter.bind (·.chainId) with
    | some c => e1.filter (fun (e : AuditEntry) => e.chainId = some c)
    | none => e1
  match truthyStr (filter.bind (·.action)) with
  | some a => e2.filter (fun (e : AuditEntry) => e.action = some a)
  | none => e2

/-- `createAuditLog(...).query`: filter by walletId / chainId / action, most
recent first, result count capped at `limit` (default 50). -/
def auditQuery (log : List AuditEntry) (filter : Option AuditLogFilter) : List AuditEntry :=
  jsSlice0 ((filter.bind (·.limit)).getD 50) (auditFiltered log filter).reverse

/-! ## Configuration (`service.ts`, `types.ts`) -/

/-- `WalletMeta` (fields used by the service). -/
structure WalletMeta where
  walletId : String
  address : String
  createdAt : Int
deriving DecidableEq, Repr

/-- `WalletState`: default wallet plus the id-to-metadata map (modelled as an
association list). -/
structure WalletState where
  defaultWalletId : Option String := none
  wallets : List (String × WalletMeta) := []
deriving DecidableEq, Repr

/-- `state.wallets[walletId]`. -/
def lookupWallet (ws : WalletState) (walletId : String) : Option WalletMeta :=
  (ws.wallets.find? (fun kv => kv.1 = walletId)).map (·.2)

/-- `WalletsLimits` (spend-policy slice of the configuration).  `limitPerTx`
and `dailyLimit` are kept as strings, as in the source, because the service
distinguishes blank strings from configured values before converting with
`BigInt`. -/
structure WalletsLimits where
  limitPerTx : Option String := none
  dailyLimit : Option String := none
  allowedChains : Option (List Nat) := none
  allowedRecipients : Option (List String) := none
deriving DecidableEq, Repr

/-- Per-chain `WalletConfig`. -/
structure WalletConfig where
  chainId : Nat
  rpcUrl : String
deriving DecidableEq, Repr

/-- `WalletServiceConfig` (fields consulted by the modelled operations). -/
structure ServiceConfig where
  chains : List (Nat × WalletConfig) := []
  defaultChainId : Nat
  limits : Option WalletsLimits := none
  interactWithUnverifiedContracts : Option Bool := none
  verifiedTokenAddresses : Option (List String) := none
  verifiedContractAddresses : Option (List String) := none
deriving DecidableEq, Repr

/-- `config.chains[chainId]` is present. -/
def chainsHas (cfg : ServiceConfig) (chainId : Nat) : Bool :=
  cfg.chains.any (fun kv => kv.1 = chainId)

/-- `isContractAllowed` from `service.ts`. -/
def isContractAllowed (address : String) (cfg : ServiceConfig) : Bool :=
  if cfg.interactWithUnverifiedContracts ≠ some false then true
  else
    let normalized := jsToLower (jsTrim address)
    let verified := ((cfg.verifiedTokenAddresses.getD []) ++ (cfg.verifiedContractAddresses.getD [])).map
      (fun a => jsToLower (jsTrim a))
    verified.any (fun a => a = normalized)

/-! ## Policy-check helpers (the inline checks in the request operations) -/

/-- The `allowedChains` gate fires: list configured, non-empty, chain absent. -/
def allowedChainsViolated (limits : Option WalletsLimits) (chainId : Nat) : Bool :=
  match limits.bind (·.allowedChains) with
  | some cs => ¬ cs.isEmpty && ¬ cs.contains chainId
  | none => false

/-- `limits.allowedRecipients.some((r) => r.trim().toLowerCase() === to.toLowerCase())`. -/
def recipientListed (rs : List String) (toAddr : String) : Bool :=
  rs.any (fun r => jsToLower (jsTrim r) = jsToLower toAddr)

/-- The `allowedRecipients` gate fires: list configured, non-empty, recipient
absent after case-insensitive comparison. -/
def allowedRecipientsViolated (limits : Option WalletsLimits) (toAddr : String) : Bool :=
  match limits.bind (·.allowedRecipients) with
  | some rs => ¬ rs.isEmpty && ¬ recipientListed rs toAddr
  | none => false

/-- `limits.dailyLimit != null && limits.dailyLimit.trim() !== ""` — the guard
used both when projecting the limit at request time and when recording spend
at approval time. -/
def dailyLimitConfigured (limits : Option WalletsLimits) : Bool :=
  match limits.bind (·.dailyLimit) with
  | some s => ¬ jsTrim s = ""
  | none => false

/-! ## Environment: external effects threaded through the operations -/

/-- Answers of the RPC client used by the transaction builder and the
broadcast step; `Except.error` models a thrown/rejected call. -/
structure Rpc where
  getTransactionCount : String → Except String Nat
  estimateGas : String → String → Int → Option String → Except String Int
  estimateFeesPerGas : Except String (Int × Int)
  getGasPrice : Except String Int
  sendRawTransaction : String → Except String String

/-- The fee shape chosen by `buildAndSignTx` (EIP-1559 first, legacy on
fee-estimation failure). -/
inductive TxFee where
  | eip1559 (maxFeePerGas maxPriorityFeePerGas : Int)
  | legacy (gasPrice : Int)
deriving DecidableEq, Repr

/-- The transaction object handed to `account.signTransaction`. -/
structure TxRequest where
  nonce : Nat
  chainId : Nat
  toAddr : String
  value : Int
  gas : Int
  fee : TxFee
  data : String
deriving DecidableEq, Repr

/-- One call's external world: clock, fresh id, viem address validation and
ABI encoding, keychain, RPC, signer, and whether the audit-file append fails
on this call. -/
structure Env where
  now : Int
  nowIso : String := ""
  today : String
  newTxId : String
  validateAddress : String → Option String
  encApprove : String → Int → String
  encTransfer : String → Int → String
  addrOfKey : String → String
  keyFor : String → Option String
  rpc : Rpc
  sign : TxRequest → Except String String
  auditFail : Bool := false

/-- Stand-in for the message of a failed `fs.appendFile` during an audit
write. -/
def auditFailMsg : String := "EIO: audit append failed"

/-! ## Service state and operation results -/

/-- The durable state the service reads and writes. -/
structure ServiceState where
  walletState : WalletState
  pendingItems : List PendingTx := []
  dailySpend : DailySpendRecord := { date := "", totalWei := 0 }
  audit : List AuditEntry := []
deriving DecidableEq, Repr

/-- `audit.append`: fails (throws) when the environment says the file write
fails; otherwise stamps the entry and appends it. -/
def auditAppend (env : Env) (st : ServiceState) (entry : AuditEntry) :
    Except String ServiceState :=
  if env.auditFail then .error auditFailMsg
  else .ok { st with audit := st.audit ++ [{ entry with atIso := some env.nowIso }] }

/-- Result of one public operation: the returned/thrown value, the successor
state, and the raw transactions handed to `sendRawTransaction` during the
call. -/
structure OpResult (α : Type) where
  result : Except String α
  state : ServiceState
  broadcasts : List String := []
deriving Repr

/-! ## Transaction builder (`tx-builder.ts`) -/

/-- Buffered fee: `(x * 120n) / 100n` with BigInt (truncating) division. -/
def feeBuffer (x : Int) : Int := Int.tdiv (x * 120) 100

/-- Parameters the service passes to `buildAndSignTx` (`txParams` in
`approveTx`).  NOTE: faithful to the source, `buildAndSignTx` consults only
`privateKeyHex`, `chainId`, `to`, `valueWei` and `data`; the gas-, fee- and
nonce-override fields are accepted but never read. -/
structure BuildParams where
  privateKeyHex : String
  chainId : Nat
  toAddr : String
  valueWei : Int
  data : Option String := none
  gasLimit : Option Int := none
  gasPrice : Option Int := none
  maxFeePerGas : Option Int := none
  maxPriorityFeePerGas : Option Int := none
  nonce : Option Nat := none
deriving DecidableEq, Repr

/-- The transaction object construction inside `buildAndSignTx`: fetch the
sender's transaction count, estimate gas and add the fixed `10000` buffer, try
EIP-1559 fees (fall back to buffered legacy gas price), and assemble the
object that will be signed. -/
def buildTxRequest (env : Env) (p : BuildParams) : Except String TxRequest := do
  let fromAddr := env.addrOfKey p.privateKeyHex
  let nonce ← env.rpc.getTransactionCount fromAddr
  let est ← env.rpc.estimateGas fromAddr p.toAddr p.valueWei p.data
  let gas := est + 10000
  let fee ← match env.rpc.estimateFeesPerGas with
    | .ok q => Except.ok (TxFee.eip1559 (feeBuffer q.1) (feeBuffer q.2))
    | .error _ => do
        let gp ← env.rpc.getGasPrice
        pure (TxFee.legacy (feeBuffer gp))
  pure { nonce := nonce, chainId := p.chainId, toAddr := p.toAddr, value := p.valueWei,
         gas := gas, fee := fee, data := p.data.getD "0x" }

/-- `buildAndSignTx`: build the transaction object and sign it, returning the
serialized transaction and the nonce used. -/
def buildAndSignTx (env : Env) (p : BuildParams) : Except String (String × Nat) := do
  let tx ← buildTxRequest env p
  let signedHex ← env.sign tx
  pure (signedHex, tx.nonce)

/-! ## Request operations (`service.ts`)

Each operation is split into its validation/policy cascade (returning the
first thrown error, state untouched) and the commit step (persist the pending
record, append the audit entry).  The cascades follow the statement order of
the source. -/

def chainNotConfMsg (c : Nat) : String := "Chain " ++ toString c ++ " not configured"

def chainNotAllowedMsg (c : Nat) : String := "Chain " ++ toString c ++ " not allowed (allowedChains)"

/-- The `limitPerTx` projection shared by `requestSend` and
`requestContractCall` (they differ only in the message text). -/
def perTxCheck (limits : Option WalletsLimits) (v : Int) (msg : String → String) :
    Except String Unit :=
  match limits.bind (·.limitPerTx) with
  | none => .ok ()
  | some s =>
    if jsTrim s = "" then .ok ()
    else match jsBigInt? s with
      | none => .error "Cannot convert limitPerTx to a BigInt"
      | some lim => if v > lim then .error (msg s) else .ok ()

/-- The `dailyLimit` projection in `requestSend`. -/
def dailyCheckSend (limits : Option WalletsLimits) (spent v : Int) : Except String Unit :=
  match limits.bind (·.dailyLimit) with
  | none => .ok ()
  | some s =>
    if jsTrim s = "" then .ok ()
    else match jsBigInt? s with
      | none => .error "Cannot convert dailyLimit to a BigInt"
      | some dayLimit =>
        if spent + v > dayLimit then
          .error ("Would exceed dailyLimit (" ++ s ++ ") for today")
        else .ok ()

/-- The `dailyLimit` projection in `requestContractCall` (applies only to
value-bearing calls). -/
def dailyCheckCall (limits : Option WalletsLimits) (spent v : Int) : Except String Unit :=
  match limits.bind (·.dailyLimit) with
  | none => .ok ()
  | some s =>
    if jsTrim s = "" then .ok ()
    else if v ≤ 0 then .ok ()
    else match jsBigInt? s with
      | none => .error "Cannot convert dailyLimit to a BigInt"
      | some dayLimit =>
        if spent + v > dayLimit then .error "Would exceed dailyLimit" else .ok ()

/-- `requestSend` parameters (`valueWei` modelled by its integer value). -/
structure SendParams where
  walletId : Option String := none
  chainId : Option Nat := none
  toAddr : String
  valueWei : Int
deriving Repr

/-- Wallet/chain/recipient resolution produced by a request cascade. -/
structure ReqCtx where
  walletId : String
  meta : WalletMeta
  toAddr : String
  chainId : Nat
deriving Repr

/-- Validation and policy cascade of `requestSend` (source order: wallet,
metadata, positive value, recipient validation, chain resolution, then the
policy gates). -/
def requestSendChecks (cfg : ServiceConfig) (env : Env) (st : ServiceState)
    (params : SendParams) : Except String ReqCtx :=
  match params.walletId <|> st.walletState.defaultWalletId with
  | none => .error "No default wallet"
  | some walletId =>
  match lookupWallet st.walletState walletId with
  | none => .error "Wallet not found"
  | some meta =>
  if params.valueWei ≤ 0 then .error "Value must be positive"
  else match env.validateAddress params.toAddr with
  | none => .error "Invalid recipient address"
  | some toA =>
  let chainId := params.chainId.getD cfg.defaultChainId
  if ¬ chainsHas cfg chainId then .error (chainNotConfMsg chainId)
  else if allowedChainsViolated cfg.limits chainId then .error (chainNotAllowedMsg chainId)
  else if allowedRecipientsViolated cfg.limits toA then .error "Recipient not in allowedRecipients"
  else match perTxCheck cfg.limits params.valueWei
      (fun s => "Value exceeds limitPerTx (" ++ s ++ ")") with
  | .error e => .error e
  | .ok _ =>
  match dailyCheckSend cfg.limits (dayTotal env.today st.dailySpend) params.valueWei with
  | .error e => .error e
  | .ok _ => .ok ⟨walletId, meta, toA, chainId⟩

/-- The `pending` record persisted by `requestSend`. -/
def mkSendPending (env : Env) (ctx : ReqCtx) (v : Int) : PendingTx :=
  { txId := env.newTxId, walletId := ctx.walletId, chainId := ctx.chainId,
    fromAddr := ctx.meta.address, toAddr := ctx.toAddr, valueWei := v,
    createdAt := env.now, status := .pending }

/-- `requestSend`. -/
def requestSend (cfg : ServiceConfig) (env : Env) (st : ServiceState)
    (params : SendParams) : OpResult (String × PendingTx) :=
  match requestSendChecks cfg env st params with
  | .error e => ⟨.error e, st, []⟩
  | .ok ctx =>
    let pending := mkSendPending env ctx params.valueWei
    let st1 := { st with pendingItems := pendingAdd st.pendingItems pending }
    match auditAppend env st1
        { action := "send_requested", txId := some env.newTxId,
          walletId := some ctx.walletId, chainId := some ctx.chainId,
          fromAddr := some ctx.meta.address, toAddr := some ctx.toAddr,
          valueWei := some params.valueWei } with
    | .error e => ⟨.error e, st1, []⟩
    | .ok st2 => ⟨.ok (env.newTxId, pending), st2, []⟩

/-- `requestErc20Approve` parameters. -/
structure Erc20ApproveParams where
  walletId : Option String := none
  chainId : Option Nat := none
  tokenAddress : String
  spender : String
  amountWei : Int
deriving Repr

/-- Validation cascade of `requestErc20Approve` (source order: token address,
contract allowlist, wallet, chain, spender).  NOTE: faithful to the source,
this operation applies neither the `allowedChains` nor the
`allowedRecipients` gate. -/
def requestErc20ApproveChecks (cfg : ServiceConfig) (env : Env) (st : ServiceState)
    (params : Erc20ApproveParams) : Except String (ReqCtx × String) :=
  match env.validateAddress params.tokenAddress with
  | none => .error "Invalid token address"
  | some tokenAddr =>
  if ¬ isContractAllowed tokenAddr cfg then
    .error "Token not in verifiedTokenAddresses (set interactWithUnverifiedContracts or add to list)"
  else match params.walletId <|> st.walletState.defaultWalletId with
  | none => .error "No default wallet"
  | some walletId =>
  match lookupWallet st.walletState walletId with
  | none => .error "Wallet not found"
  | some meta =>
  let chainId := params.chainId.getD cfg.defaultChainId
  if ¬ chainsHas cfg chainId then .error (chainNotConfMsg chainId)
  else match env.validateAddress params.spender with
  | none => .error "Invalid spender address"
  | some spender => .ok (⟨walletId, meta, tokenAddr, chainId⟩, spender)

/-- The `pending` record persisted by `requestErc20Approve` (zero value,
calldata `approve(spender, amount)`). -/
def mkApprovePending (env : Env) (ctx : ReqCtx) (spender : String) (amount : Int) : PendingTx :=
  { txId := env.newTxId, walletId := ctx.walletId, chainId := ctx.chainId,
    fromAddr := ctx.meta.address, toAddr := ctx.toAddr, valueWei := 0,
    data := some (env.encApprove spender amount),
    createdAt := env.now, status := .pending }

/-- `requestErc20Approve`. -/
def requestErc20Approve (cfg : ServiceConfig) (env : Env) (st : ServiceState)
    (params : Erc20ApproveParams) : OpResult (String × PendingTx) :=
  match requestErc20ApproveChecks cfg env st params with
  | .error e => ⟨.error e, st, []⟩
  | .ok (ctx, spender) =>
    let pending := mkApprovePending env ctx spender params.amountWei
    let st1 := { st with pendingItems := pendingAdd st.pendingItems pending }
    match auditAppend env st1
        { action := "erc20_approve_requested", txId := some env.newTxId,
          walletId := some ctx.walletId, chainId := some ctx.chainId,
          tokenAddress := some ctx.toAddr, spender := some spender,
          amountWei := some params.amountWei } with
    | .error e => ⟨.error e, st1, []⟩
    | .ok st2 => ⟨.ok (env.newTxId, pending), st2, []⟩

/-- `requestErc20Transfer` parameters. -/
structure Erc20TransferParams where
  walletId : Option String := none
  chainId : Option Nat := none
  tokenAddress : String
  toAddr : String
  amountWei : Int
deriving Repr

/-- Validation and policy cascade of `requestErc20Transfer` (source order:
token address, contract allowlist, wallet, chain, recipient, positive amount,
`allowedChains` gate, `allowedRecipients` gate on the token recipient). -/
def requestErc20TransferChecks (cfg : ServiceConfig) (env : Env) (st : ServiceState)
    (params : Erc20TransferParams) : Except String (ReqCtx × String) :=
  match env.validateAddress params.tokenAddress with
  | none => .error "Invalid token address"
  | some tokenAddr =>
  if ¬ isContractAllowed tokenAddr cfg then
    .error "Token not in verifiedTokenAddresses (set interactWithUnverifiedContracts or add to list)"
  else match params.walletId <|> st.walletState.defaultWalletId with
  | none => .error "No default wallet"
  | some walletId =>
  match lookupWallet st.walletState walletId with
  | none => .error "Wallet not found"
  | some meta =>
  let chainId := params.chainId.getD cfg.defaultChainId
  if ¬ chainsHas cfg chainId then .error (chainNotConfMsg chainId)
  else match env.validateAddress params.toAddr with
  | none => .error "Invalid recipient address"
  | some toA =>
  if params.amountWei ≤ 0 then .error "Amount must be positive"
  else if allowedChainsViolated cfg.limits chainId then .error (chainNotAllowedMsg chainId)
  else if allowedRecipientsViolated cfg.limits toA then .error "Recipient not in allowedRecipients"
  else .ok (⟨walletId, meta, tokenAddr, chainId⟩, toA)

/-- The `pending` record persisted by `requestErc20Transfer` (zero value,
calldata `transfer(to, amount)`). -/
def mkTransferPending (env : Env) (ctx : ReqCtx) (toA : String) (amount : Int) : PendingTx :=
  { txId := env.newTxId, walletId := ctx.walletId, chainId := ctx.chainId,
    fromAddr := ctx.meta.address, toAddr := ctx.toAddr, valueWei := 0,
    data := some (env.encTransfer toA amount),
    createdAt := env.now, status := .pending }

/-- `requestErc20Transfer`. -/
def requestErc20Transfer (cfg : ServiceConfig) (env : Env) (st : ServiceState)
    (params : Erc20TransferParams) : OpResult (String × PendingTx) :=
  match requestErc20TransferChecks cfg env st params with
  | .error e => ⟨.error e, st, []⟩
  | .ok (ctx, toA) =>
    let pending := mkTransferPending env ctx toA params.amountWei
    let st1 := { st with pendingItems := pendingAdd st.pendingItems pending }
    match auditAppend env st1
        { action := "erc20_transfer_requested", txId := some env.newTxId,
          walletId := some ctx.walletId, chainId := some ctx.chainId,
          tokenAddress := some ctx.toAddr, toAddr := some toA,
          amountWei := some params.amountWei } with
    | .error e => ⟨.error e, st1, []⟩
    | .ok st2 => ⟨.ok (env.newTxId, pending), st2, []⟩

/-- `requestContractCall` parameters.  The optional gas/fee overrides are
decimal strings in the source, validated positive and stored verbatim; they
are modelled by their integer values (a blank override string behaves as an
absent one, which `Option` already captures). -/
structure CallParams where
  walletId : Option String := none
  chainId : Option Nat := none
  toAddr : String
  valueWei : Int := 0
  data : String
  gasLimit : Option Int := none
  gasPrice : Option Int := none
  maxFeePerGas : Option Int := none
  maxPriorityFeePerGas : Option Int := none
  nonce : Option Nat := none
deriving Repr

/-- Positivity check applied to each supplied gas/fee override. -/
def overrideCheck (v : Option Int) (msg : String) : Except String Unit :=
  match v with
  | none => .ok ()
  | some x => if x ≤ 0 then .error msg else .ok ()

/-- Validation and policy cascade of `requestContractCall` (source order:
contract address, contract allowlist, wallet, chain, non-negative value, hex
calldata, positive gas/fee overrides, `allowedChains`, `allowedRecipients`,
`limitPerTx`, `dailyLimit`). -/
def requestContractCallChecks (cfg : ServiceConfig) (env : Env) (st : ServiceState)
    (params : CallParams) : Except String (ReqCtx × String) :=
  match env.validateAddress params.toAddr with
  | none => .error "Invalid contract address"
  | some toA =>
  if ¬ isContractAllowed toA cfg then
    .error "Contract not in verifiedContractAddresses/verifiedTokenAddresses (set interactWithUnverifiedContracts or add to list)"
  else match params.walletId <|> st.walletState.defaultWalletId with
  | none => .error "No default wallet"
  | some walletId =>
  match lookupWallet st.walletState walletId with
  | none => .error "Wallet not found"
  | some meta =>
  let chainId := params.chainId.getD cfg.defaultChainId
  if ¬ chainsHas cfg chainId then .error (chainNotConfMsg chainId)
  else if params.valueWei < 0 then .error "valueWei must be non-negative"
  else
  let data := jsTrim params.data
  if ¬ data.startsWith "0x" then .error "data must be hex (0x...)"
  else match overrideCheck params.gasLimit "gasLimit must be positive" with
  | .error e => .error e
  | .ok _ =>
  match overrideCheck params.gasPrice "gasPrice must be positive" with
  | .error e => .error e
  | .ok _ =>
  match overrideCheck params.maxFeePerGas "maxFeePerGas must be positive" with
  | .error e => .error e
  | .ok _ =>
  match overrideCheck params.maxPriorityFeePerGas "maxPriorityFeePerGas must be positive" with
  | .error e => .error e
  | .ok _ =>
  if allowedChainsViolated cfg.limits chainId then .error (chainNotAllowedMsg chainId)
  else if allowedRecipientsViolated cfg.limits toA then .error "Recipient not in allowedRecipients"
  else match perTxCheck cfg.limits params.valueWei (fun _ => "valueWei exceeds limitPerTx") with
  | .error e => .error e
  | .ok _ =>
  match dailyCheckCall cfg.limits (dayTotal env.today st.dailySpend) params.valueWei with
  | .error e => .error e
  | .ok _ => .ok (⟨walletId, meta, toA, chainId⟩, data)

/-- The `pending` record persisted by `requestContractCall` (value, trimmed
calldata, and the validated gas/fee/nonce overrides). -/
def mkCallPending (env : Env) (ctx : ReqCtx) (data : String) (params : CallParams) : PendingTx :=
  { txId := env.newTxId, walletId := ctx.walletId, chainId := ctx.chainId,
    fromAddr := ctx.meta.address, toAddr := ctx.toAddr, valueWei := params.valueWei,
    data := some data, gasLimit := params.gasLimit, gasPrice := params.gasPrice,
    maxFeePerGas := params.maxFeePerGas,
    maxPriorityFeePerGas := params.maxPriorityFeePerGas, nonce := params.nonce,
    createdAt := env.now, status := .pending }

/-- `requestContractCall`. -/
def requestContractCall (cfg : ServiceConfig) (env : Env) (st : ServiceState)
    (params : CallParams) : OpResult (String × PendingTx) :=
  match requestContractCallChecks cfg env st params with
  | .error e => ⟨.error e, st, []⟩
  | .ok (ctx, data) =>
    let pending := mkCallPending env ctx data params
    let st1 := { st with pendingItems := pendingAdd st.pendingItems pending }
    match auditAppend env st1
        { action := "contract_call_requested", txId := some env.newTxId,
          walletId := some ctx.walletId, chainId := some ctx.chainId,
          toAddr := some ctx.toAddr, valueWei := some params.valueWei } with
    | .error e => ⟨.error e, st1, []⟩
    | .ok st2 => ⟨.ok (env.newTxId, pending), st2, []⟩

/-! ## Approval / rejection (`service.ts`) -/

/-- `PENDING_TX_TTL_MS`: pending transactions expire after 30 minutes. -/
def PENDING_TX_TTL_MS : Int := 30 * 60 * 1000

/-- The `{ txHash, chainId }` / `{ error }` union returned by `approveTx`. -/
inductive ApproveRes where
  | success (txHash : String) (chainId : Nat)
  | failure (error : String)
deriving DecidableEq, Repr

/-- `{ status: "failed", error }` patch. -/
def failedPatch (msg : String) : Patch :=
  { status := some .failed, error := some msg }

/-- `{ status: "approved" }` patch. -/
def approvedPatch : Patch := { status := some .approved }

/-- `{ status: "sent", txHash }` patch. -/
def sentPatch (txHash : String) : Patch :=
  { status := some .sent, txHash := some txHash }

/-- `{ status: "rejected" }` patch. -/
def rejectedPatch : Patch := { status := some .rejected }

/-- The `catch` handler of `approveTx`: record the failure on the pending
record, audit it, and return the error. -/
def approveCatch (env : Env) (st : ServiceState) (txId : String) (pending : PendingTx)
    (msg : String) (broadcasts : List String) : OpResult ApproveRes :=
  let items' := pendingUpdate st.pendingItems txId (failedPatch msg)
  let st' := { st with pendingItems := items' }
  match auditAppend env st'
      { action := "send_failed", txId := some txId, walletId := some pending.walletId,
        chainId := some pending.chainId, error := some msg } with
  | .error e => ⟨.error e, st', broadcasts⟩
  | .ok st'' => ⟨.ok (.failure msg), st'', broadcasts⟩

/-- `approveTx`. -/
def approveTx (cfg : ServiceConfig) (env : Env) (st : ServiceState) (txId : String) :
    OpResult ApproveRes :=
  match pendingGet st.pendingItems txId with
  | none => ⟨.ok (.failure "Pending tx not found"), st, []⟩
  | some pending =>
  if pending.status ≠ .pending then
    ⟨.ok (.failure ("Tx status is " ++ statusText pending.status)), st, []⟩
  else if env.now - pending.createdAt > PENDING_TX_TTL_MS then
    let items1 := pendingUpdate st.pendingItems txId (failedPatch "Pending tx expired (>30min)")
    let st1 := { st with pendingItems := items1 }
    match auditAppend env st1
        { action := "send_expired", txId := some txId,
          walletId := some pending.walletId, chainId := some pending.chainId } with
    | .error e => ⟨.error e, st1, []⟩
    | .ok st2 => ⟨.ok (.failure "Pending tx expired. Create a new transaction."), st2, []⟩
  else
  -- optimistic-lock re-read (in this sequential model it re-reads the same store)
  match pendingGet st.pendingItems txId with
  | none => ⟨.ok (.failure "Tx already processed (status: unknown)"), st, []⟩
  | some fresh =>
  if fresh.status ≠ .pending then
    ⟨.ok (.failure ("Tx already processed (status: " ++ statusText fresh.status ++ ")")), st, []⟩
  else
  let st1 := { st with pendingItems := pendingUpdate st.pendingItems txId approvedPatch }
  match env.keyFor pending.walletId with
  | none =>
    let items2 := pendingUpdate st1.pendingItems txId (failedPatch "Cannot read wallet key")
    let st2 := { st1 with pendingItems := items2 }
    ⟨.ok (.failure "Cannot read wallet key"), st2, []⟩
  | some privateKey =>
  if ¬ chainsHas cfg pending.chainId then
    -- `getRpc` throws for an unconfigured chain, outside the try/catch
    ⟨.error (chainNotConfMsg pending.chainId), st1, []⟩
  else
    let bp : BuildParams :=
      { privateKeyHex := privateKey, chainId := pending.chainId, toAddr := pending.toAddr,
        valueWei := pending.valueWei, data := pending.data, gasLimit := pending.gasLimit,
        gasPrice := pending.gasPrice, maxFeePerGas := pending.maxFeePerGas,
        maxPriorityFeePerGas := pending.maxPriorityFeePerGas, nonce := pending.nonce }
    match buildAndSignTx env bp with
    | .error msg => approveCatch env st1 txId pending msg []
    | .ok (signedHex, _) =>
      match env.rpc.sendRawTransaction signedHex with
      | .error msg => approveCatch env st1 txId pending msg [signedHex]
      | .ok txHash =>
        let items2 := pendingUpdate st1.pendingItems txId (sentPatch txHash)
        let st2 := { st1 with pendingItems := items2 }
        let st3 :=
          if dailyLimitConfigured cfg.limits then
            { st2 with dailySpend := addSpend env.today pending.valueWei st2.dailySpend }
          else st2
        match auditAppend env st3
            { action := "send_approved", txId := some txId,
              walletId := some pending.walletId, chainId := some pending.chainId,
              fromAddr := some pending.fromAddr, toAddr := some pending.toAddr,
              valueWei := some pending.valueWei, txHash := some txHash } with
        | .error msg => approveCatch env st3 txId pending msg [signedHex]
        | .ok st4 => ⟨.ok (.success txHash pending.chainId), st4, [signedHex]⟩

/-- The `{ ok, error? }` result of `rejectTx`. -/
structure RejectRes where
  ok : Bool
  error : Option String := none
deriving DecidableEq, Repr

/-- `rejectTx`. -/
def rejectTx (env : Env) (st : ServiceState) (txId : String) : OpResult RejectRes :=
  match pendingGet st.pendingItems txId with
  | none => ⟨.ok ⟨false, some "Pending tx not found"⟩, st, []⟩
  | some pending =>
  if pending.status ≠ .pending then
    ⟨.ok ⟨false, some ("Tx status is " ++ statusText pending.status)⟩, st, []⟩
  else
    let st1 := { st with pendingItems := pendingUpdate st.pendingItems txId rejectedPatch }
    match auditAppend env st1
        { action := "send_rejected", txId := some txId,
          walletId := some pending.walletId, chainId := some pending.chainId,
          fromAddr := some pending.fromAddr, toAddr := some pending.toAddr,
          valueWei := some pending.valueWei } with
    | .error e => ⟨.error e, st1, []⟩
    | .ok st2 => ⟨.ok ⟨true, none⟩, st2, []⟩

/-- `queryHistory`: delegates to the audit log's query. -/
def queryHistory (st : ServiceState) (filter : Option AuditLogFilter) : List AuditEntry :=
  auditQuery st.audit filter

/-! ## A uniform step over the state-changing operations -/

/-- One state-changing service call. -/
inductive Op where
  | send (params : SendParams)
  | erc20Approve (params : Erc20ApproveParams)
  | erc20Transfer (params : Erc20TransferParams)
  | contractCall (params : CallParams)
  | approve (txId : String)
  | reject (txId : String)

/-- Whether the Except-level result succeeded, the successor state, and the
broadcasts, uniformly across the operations. -/
structure Step where
  isOk : Bool
  state : ServiceState
  broadcasts : List String

/-- Run one operation and observe it uniformly. -/
def runStep (cfg : ServiceConfig) (env : Env) (st : ServiceState) : Op → Step
  | .send p => let r := requestSend cfg env st p; ⟨r.result.toBool, r.state, r.broadcasts⟩
  | .erc20Approve p => let r := requestErc20Approve cfg env st p; ⟨r.result.toBool, r.state, r.broadcasts⟩
  | .erc20Transfer p => let r := requestErc20Transfer cfg env st p; ⟨r.result.toBool, r.state, r.broadcasts⟩
  | .contractCall p => let r := requestContractCall cfg env st p; ⟨r.result.toBool, r.state, r.broadcasts⟩
  | .approve txId => let r := approveTx cfg env st txId; ⟨r.result.toBool, r.state, r.broadcasts⟩
  | .reject txId => let r := rejectTx env st txId; ⟨r.result.toBool, r.state, r.broadcasts⟩

/-! ## Store lemmas -/

theorem applyPatch_txId (p : PendingTx) (q : Patch) : (applyPatch p q).txId = p.txId := rfl

theorem pendingGet_txId {items : List PendingTx} {t : String} {p : PendingTx}
    (h : pendingGet items t = some p) : p.txId = t := by
  have := List.find?_some h
  simpa using this

theorem pendingGet_nil (t : String) : pendingGet [] t = none := rfl

theorem pendingGet_cons (x : PendingTx) (items : List PendingTx) (t : String) :
    pendingGet (x :: items) t = if x.txId = t then some x else pendingGet items t := by
  by_cases h : x.txId = t <;> simp [pendingGet, List.find?_cons, h]

/-- Cons-step characterisation of `pendingUpdate` (first-match replace). -/
theorem pendingUpdate_cons (x : PendingTx) (items : List PendingTx) (t : String) (q : Patch) :
    pendingUpdate (x :: items) t q =
      if x.txId = t then applyPatch x q :: items else x :: pendingUpdate items t q := by
  by_cases h : x.txId = t
  · simp [pendingUpdate, List.findIdx?_cons, h]
  · rw [if_neg h]
    cases hfi : items.findIdx? (fun r => decide (r.txId = t)) with
    | none => simp [pendingUpdate, List.findIdx?_cons, List.findIdx?_succ, h, hfi]
    | some j =>
      cases hj : items[j]? with
      | none => simp [pendingUpdate, List.findIdx?_cons, List.findIdx?_succ, h, hfi, hj]
      | some rec =>
        simp [pendingUpdate, List.findIdx?_cons, List.findIdx?_succ, h, hfi, hj,
          List.getElem?_cons_succ, List.set_cons_succ]

theorem pendingUpdate_nil (t : String) (q : Patch) : pendingUpdate [] t q = [] := rfl

/-- Updating an id that is absent from the store changes nothing. -/
theorem pendingUpdate_absent {items : List PendingTx} {t : String} (q : Patch)
    (h : pendingGet items t = none) : pendingUpdate items t q = items := by
  induction items with
  | nil => rfl
  | cons x xs ih =>
    rw [pendingGet_cons] at h
    by_cases hx : x.txId = t
    · simp [hx] at h
    · rw [pendingUpdate_cons, if_neg hx, ih (by simpa [hx] using h)]

/-- Reading back the updated id yields the patched first match. -/
theorem pendingGet_update_self {items : List PendingTx} {t : String} {rec : PendingTx}
    (q : Patch) (h : pendingGet items t = some rec) :
    pendingGet (pendingUpdate items t q) t = some (applyPatch rec q) := by
  induction items with
  | nil => simp [pendingGet] at h
  | cons x xs ih =>
    rw [pendingGet_cons] at h
    rw [pendingUpdate_cons]
    by_cases hx : x.txId = t
    · rw [if_pos hx] at h
      rw [if_pos hx, pendingGet_cons, if_pos (by rw [applyPatch_txId, hx])]
      simp only [Option.some.injEq] at h
      rw [h]
    · rw [if_neg hx] at h
      rw [if_neg hx, pendingGet_cons, if_neg hx]
      exact ih h

/-- Reading a different id is unaffected by an update. -/
theorem pendingGet_update_ne {items : List PendingTx} {t t' : String} (q : Patch)
    (hne : t' ≠ t) : pendingGet (pendingUpdate items t q) t' = pendingGet items t' := by
  induction items with
  | nil => rfl
  | cons x xs ih =>
    rw [pendingUpdate_cons]
    by_cases hx : x.txId = t
    · rw [if_pos hx, pendingGet_cons, pendingGet_cons, applyPatch_txId]
      have hxt : ¬ x.txId = t' := by rw [hx]; exact fun hh => hne hh.symm
      rw [if_neg hxt, if_neg hxt]
    · rw [if_neg hx, pendingGet_cons, pendingGet_cons, ih]

/-- An update leaves every position other than the first match untouched; the
first match holds the patched record.  Stated positionally. -/
theorem pendingUpdate_getElem? {items : List PendingTx} {t : String} (q : Patch) (i : Nat)
    (hi : ∀ rec, pendingGet items t = some rec → items[i]? = some rec → False) :
    (pendingUpdate items t q)[i]? = items[i]? := by
  induction items generalizing i with
  | nil => rfl
  | cons x xs ih =>
    rw [pendingUpdate_cons]
    by_cases hx : x.txId = t
    · rw [if_pos hx]
      cases i with
      | zero => exact (hi x (by rw [pendingGet_cons, if_pos hx]) (by simp)).elim
      | succ n => simp
    · rw [if_neg hx]
      cases i with
      | zero => simp
      | succ n =>
        simp only [List.getElem?_cons_succ]
        exact ih n (fun rec hg hn => hi rec (by rw [pendingGet_cons, if_neg hx]; exact hg)
          (by simpa using hn))

/-- First-match-only: a record at a position whose value differs from the
first match of its id survives every update of that id. -/
theorem pendingUpdate_preserves {items : List PendingTx} {t : String} (q : Patch) {i : Nat}
    {p : PendingTx} (hp : items[i]? = some p)
    (hne : ∀ rec, pendingGet items t = some rec → rec ≠ p) :
    (pendingUpdate items t q)[i]? = some p := by
  rw [pendingUpdate_getElem? q i (fun rec hg hn => hne rec hg (by
    rw [hp] at hn; exact ((Option.some.injEq _ _).mp hn).symm))]
  exact hp

/-- `pendingAdd` preserves existing positions. -/
theorem pendingAdd_getElem? (items : List PendingTx) (tx : PendingTx) {i : Nat}
    {p : PendingTx} (hp : items[i]? = some p) : (pendingAdd items tx)[i]? = some p := by
  unfold pendingAdd
  split
  · exact hp
  · rw [List.getElem?_append_left]
    · exact hp
    · exact (List.getElem?_eq_some.mp hp).1

/-- Adding a fresh id appends. -/
theorem pendingAdd_fresh {items : List PendingTx} {tx : PendingTx}
    (h : ∀ p ∈ items, p.txId ≠ tx.txId) : pendingAdd items tx = items ++ [tx] := by
  unfold pendingAdd
  rw [if_neg]
  simp only [List.any_eq_true, decide_eq_true_eq, not_exists, not_and]
  intro p hp
  exact h p hp

/-- Looking up a fresh id after an append finds the appended record. -/
theorem pendingGet_append_fresh {items : List PendingTx} {rec : PendingTx} {t : String}
    (hfresh : ∀ p ∈ items, p.txId ≠ t) (hid : rec.txId = t) :
    pendingGet (items ++ [rec]) t = some rec := by
  induction items with
  | nil => simp [pendingGet, List.find?_cons, hid]
  | cons x xs ih =>
    rw [List.cons_append, pendingGet_cons, if_neg (hfresh x (by simp))]
    exact ih (fun p hp => hfresh p (by simp [hp]))

/-- Updating a fresh appended record patches only it. -/
theorem pendingUpdate_append_fresh {items : List PendingTx} {rec : PendingTx} {t : String}
    (q : Patch) (hfresh : ∀ p ∈ items, p.txId ≠ t) (hid : rec.txId = t) :
    pendingUpdate (items ++ [rec]) t q = items ++ [applyPatch rec q] := by
  induction items with
  | nil => simp [pendingUpdate_cons, hid]
  | cons x xs ih =>
    rw [List.cons_append, pendingUpdate_cons, if_neg (hfresh x (by simp))]
    rw [List.cons_append, ih (fun p hp => hfresh p (by simp [hp]))]

/-- `find?` and `findIdx?` agree on the first match. -/
theorem pendingGet_findIdx? {items : List PendingTx} {t : String} {rec : PendingTx}
    (h : pendingGet items t = some rec) :
    ∃ j, items.findIdx? (fun r => decide (r.txId = t)) = some j ∧ items[j]? = some rec := by
  induction items with
  | nil => simp [pendingGet] at h
  | cons x xs ih =>
    rw [pendingGet_cons] at h
    by_cases hx : x.txId = t
    · rw [if_pos hx] at h
      refine ⟨0, ?_, ?_⟩
      · rw [List.findIdx?_cons]
        simp [hx]
      · simpa using h
    · rw [if_neg hx] at h
      obtain ⟨j, hfi, hj⟩ := ih h
      refine ⟨j + 1, ?_, by simpa using hj⟩
      rw [List.findIdx?_cons]
      simp [hx, List.findIdx?_succ, hfi]

/-- An update leaves every index other than the first-match index unchanged. -/
theorem pendingUpdate_getElem?_idx {items : List PendingTx} {t : String} (q : Patch)
    {i : Nat} (h : ∀ j, items.findIdx? (fun r => decide (r.txId = t)) = some j → i ≠ j) :
    (pendingUpdate items t q)[i]? = items[i]? := by
  unfold pendingUpdate
  cases hfi : items.findIdx? (fun r => decide (r.txId = t)) with
  | none => rfl
  | some j =>
    cases hj : items[j]? with
    | none => simp [hj]
    | some rec =>
      simp only [hj]
      exact List.getElem?_set_ne (fun hh => h j hfi hh.symm)

/-- Patches do not change ids, so the first-match index of any id is stable
under an update. -/
theorem pendingUpdate_findIdx?_stable (items : List PendingTx) (t : String) (q : Patch)
    (t' : String) :
    (pendingUpdate items t q).findIdx? (fun r => decide (r.txId = t'))
      = items.findIdx? (fun r => decide (r.txId = t')) := by
  induction items with
  | nil => rfl
  | cons x xs ih =>
    rw [pendingUpdate_cons]
    by_cases hx : x.txId = t
    · rw [if_pos hx]
      rw [List.findIdx?_cons, List.findIdx?_cons, applyPatch_txId]
    · rw [if_neg hx]
      rw [List.findIdx?_cons, List.findIdx?_cons, List.findIdx?_succ, List.findIdx?_succ, ih]

/-- A record at a position other than the first-match index of `t` survives
any chain of updates of `t`. -/
theorem pendingUpdate_chain_preserves {t : String} {i j : Nat} (hij : i ≠ j)
    (qs : List Patch) :
    ∀ items : List PendingTx,
      items.findIdx? (fun r => decide (r.txId = t)) = some j →
      ∀ {p : PendingTx}, items[i]? = some p →
      (qs.foldl (fun its q => pendingUpdate its t q) items)[i]? = some p := by
  induction qs with
  | nil => intro items _ p hp; exact hp
  | cons q qs ih =>
    intro items hfi p hp
    rw [List.foldl_cons]
    have hne : ∀ j', List.findIdx? (fun r => decide (r.txId = t)) items = some j' → i ≠ j' := by
      intro j' hj'
      rw [hfi] at hj'
      injection hj' with hj'
      exact hj' ▸ hij
    refine ih (pendingUpdate items t q) ?_ ?_
    · rw [pendingUpdate_findIdx?_stable, hfi]
    · rw [pendingUpdate_getElem?_idx q hne]
      exact hp

/-- `auditAppend` succeeds by stamping and appending the entry. -/
theorem auditAppend_ok {env : Env} {st : ServiceState} {e : AuditEntry} {st' : ServiceState}
    (h : auditAppend env st e = .ok st') :
    st' = { st with audit := st.audit ++ [{ e with atIso := some env.nowIso }] } := by
  unfold auditAppend at h
  split at h
  · exact Except.noConfusion h
  · injection h with h
    exact h.symm

/-! ## Characterisation of the request operations -/

theorem requestSend_error {cfg : ServiceConfig} {env : Env} {st : ServiceState}
    {params : SendParams} {e : String}
    (h : requestSendChecks cfg env st params = .error e) :
    requestSend cfg env st params = ⟨.error e, st, []⟩ := by
  unfold requestSend
  rw [h]

/-- On a passing cascade, `requestSend` persists the new pending record (also
when the subsequent audit append fails), leaves the daily-spend record alone,
and succeeds exactly when the audit append does. -/
theorem requestSend_ok {cfg : ServiceConfig} {env : Env} {st : ServiceState}
    {params : SendParams} {ctx : ReqCtx}
    (h : requestSendChecks cfg env st params = .ok ctx) :
    (requestSend cfg env st params).state.pendingItems
        = pendingAdd st.pendingItems (mkSendPending env ctx params.valueWei) ∧
    (requestSend cfg env st params).state.dailySpend = st.dailySpend ∧
    (requestSend cfg env st params).state.walletState = st.walletState ∧
    ((requestSend cfg env st params).result.isOk = true ↔ env.auditFail = false) ∧
    (env.auditFail = false →
      (requestSend cfg env st params).result
        = .ok (env.newTxId, mkSendPending env ctx params.valueWei)) ∧
    (requestSend cfg env st params).broadcasts = [] := by
  unfold requestSend
  rw [h]
  cases haf : env.auditFail with
  | true => simp [auditAppend, haf, Except.isOk, Except.toBool]
  | false => simp [auditAppend, haf, Except.isOk, Except.toBool]

/-- Facts recoverable from a passing `requestSend` cascade. -/
theorem requestSendChecks_ok_props {cfg : ServiceConfig} {env : Env} {st : ServiceState}
    {params : SendParams} {ctx : ReqCtx}
    (h : requestSendChecks cfg env st params = .ok ctx) :
    env.validateAddress params.toAddr = some ctx.toAddr ∧
    ctx.chainId = params.chainId.getD cfg.defaultChainId ∧
    chainsHas cfg ctx.chainId = true ∧
    allowedChainsViolated cfg.limits ctx.chainId = false ∧
    allowedRecipientsViolated cfg.limits ctx.toAddr = false ∧
    0 < params.valueWei ∧
    dailyCheckSend cfg.limits (dayTotal env.today st.dailySpend) params.valueWei = .ok () := by
  unfold requestSendChecks at h
  simp only [] at h
  repeat' split at h
  all_goals try exact (Except.noConfusion h)
  injection h with h
  subst h
  simp_all

theorem requestErc20Transfer_error {cfg : ServiceConfig} {env : Env} {st : ServiceState}
    {params : Erc20TransferParams} {e : String}
    (h : requestErc20TransferChecks cfg env st params = .error e) :
    requestErc20Transfer cfg env st params = ⟨.error e, st, []⟩ := by
  unfold requestErc20Transfer
  rw [h]

/-- Facts recoverable from a passing `requestErc20Transfer` cascade (the
second component of the context pair is the validated token recipient). -/
theorem requestErc20TransferChecks_ok_props {cfg : ServiceConfig} {env : Env}
    {st : ServiceState} {params : Erc20TransferParams} {pr : ReqCtx × String}
    (h : requestErc20TransferChecks cfg env st params = .ok pr) :
    env.validateAddress params.toAddr = some pr.2 ∧
    pr.1.chainId = params.chainId.getD cfg.defaultChainId ∧
    allowedChainsViolated cfg.limits pr.1.chainId = false ∧
    allowedRecipientsViolated cfg.limits pr.2 = false := by
  unfold requestErc20TransferChecks at h
  simp only [] at h
  repeat' split at h
  all_goals try exact (Except.noConfusion h)
  injection h with h
  subst h
  simp_all

theorem requestContractCall_error {cfg : ServiceConfig} {env : Env} {st : ServiceState}
    {params : CallParams} {e : String}
    (h : requestContractCallChecks cfg env st params = .error e) :
    requestContractCall cfg env st params = ⟨.error e, st, []⟩ := by
  unfold requestContractCall
  rw [h]

/-- Facts recoverable from a passing `requestContractCall` cascade. -/
theorem requestContractCallChecks_ok_props {cfg : ServiceConfig} {env : Env}
    {st : ServiceState} {params : CallParams} {pr : ReqCtx × String}
    (h : requestContractCallChecks cfg env st params = .ok pr) :
    env.validateAddress params.toAddr = some pr.1.toAddr ∧
    pr.1.chainId = params.chainId.getD cfg.defaultChainId ∧
    allowedChainsViolated cfg.limits pr.1.chainId = false ∧
    allowedRecipientsViolated cfg.limits pr.1.toAddr = false := by
  unfold requestContractCallChecks at h
  simp only [] at h
  repeat' split at h
  all_goals try exact (Except.noConfusion h)
  injection h with h
  subst h
  simp_all

/-! ## Shapes of the successor pending store, per operation -/

theorem auditAppend_ok_pendingItems {env : Env} {st : ServiceState} {e : AuditEntry}
    {st' : ServiceState} (h : auditAppend env st e = .ok st') :
    st'.pendingItems = st.pendingItems := by
  rw [auditAppend_ok h]

theorem requestSend_items_shape (cfg : ServiceConfig) (env : Env) (st : ServiceState)
    (params : SendParams) :
    (requestSend cfg env st params).state.pendingItems = st.pendingItems ∨
    ∃ r, (requestSend cfg env st params).state.pendingItems = pendingAdd st.pendingItems r := by
  unfold requestSend
  split
  · left; rfl
  · right
    dsimp only
    split
    · exact ⟨_, rfl⟩
    · next st2 haa => exact ⟨_, by rw [auditAppend_ok_pendingItems haa]⟩

theorem requestErc20Approve_items_shape (cfg : ServiceConfig) (env : Env) (st : ServiceState)
    (params : Erc20ApproveParams) :
    (requestErc20Approve cfg env st params).state.pendingItems = st.pendingItems ∨
    ∃ r, (requestErc20Approve cfg env st params).state.pendingItems
      = pendingAdd st.pendingItems r := by
  unfold requestErc20Approve
  split
  · left; rfl
  · right
    dsimp only
    split
    · exact ⟨_, rfl⟩
    · next st2 haa => exact ⟨_, by rw [auditAppend_ok_pendingItems haa]⟩

theorem requestErc20Transfer_items_shape (cfg : ServiceConfig) (env : Env) (st : ServiceState)
    (params : Erc20TransferParams) :
    (requestErc20Transfer cfg env st params).state.pendingItems = st.pendingItems ∨
    ∃ r, (requestErc20Transfer cfg env st params).state.pendingItems
      = pendingAdd st.pendingItems r := by
  unfold requestErc20Transfer
  split
  · left; rfl
  · right
    dsimp only
    split
    · exact ⟨_, rfl⟩
    · next st2 haa => exact ⟨_, by rw [auditAppend_ok_pendingItems haa]⟩

theorem requestContractCall_items_shape (cfg : ServiceConfig) (env : Env) (st : ServiceState)
    (params : CallParams) :
    (requestContractCall cfg env st params).state.pendingItems = st.pendingItems ∨
    ∃ r, (requestContractCall cfg env st params).state.pendingItems
      = pendingAdd st.pendingItems r := by
  unfold requestContractCall
  split
  · left; rfl
  · right
    dsimp only
    split
    · exact ⟨_, rfl⟩
    · next st2 haa => exact ⟨_, by rw [auditAppend_ok_pendingItems haa]⟩

theorem rejectTx_items_shape (env : Env) (st : ServiceState) (t : String) :
    (rejectTx env st t).state.pendingItems = st.pendingItems ∨
    ∃ rec₀, pendingGet st.pendingItems t = some rec₀ ∧ rec₀.status = .pending ∧
      (rejectTx env st t).state.pendingItems
        = pendingUpdate st.pendingItems t rejectedPatch := by
  unfold rejectTx
  split
  · left; rfl
  · next rec₀ hget =>
    split
    · left; rfl
    · next hst =>
      right
      refine ⟨rec₀, hget, not_not.mp hst, ?_⟩
      dsimp only
      split
      · rfl
      · next st2 haa => rw [auditAppend_ok_pendingItems haa]

/-- `approveTx` either leaves the pending store alone or applies a chain of
patches to the id it was called with, and the latter only when that id's
first match was `pending`. -/
theorem approveTx_items_shape (cfg : ServiceConfig) (env : Env) (st : ServiceState)
    (t : String) :
    (approveTx cfg env st t).state.pendingItems = st.pendingItems ∨
    ∃ qs : List Patch, ∃ rec₀, pendingGet st.pendingItems t = some rec₀ ∧
      rec₀.status = .pending ∧
      (approveTx cfg env st t).state.pendingItems
        = qs.foldl (fun its q => pendingUpdate its t q) st.pendingItems := by
  unfold approveTx
  split
  · left; rfl
  next rec₀ hget =>
    split
    · left; rfl
    next hst =>
      have hstp : rec₀.status = .pending := not_not.mp hst
      split
      · -- expired
        dsimp only
        split
        · exact Or.inr ⟨[failedPatch "Pending tx expired (>30min)"], rec₀, hget, hstp, rfl⟩
        · next st2 haa =>
          right
          refine ⟨[failedPatch "Pending tx expired (>30min)"], rec₀, hget, hstp, ?_⟩
          rw [auditAppend_ok_pendingItems haa]
          rfl
      · -- fresh re-read of the same store
        rw [hget]
        simp only [hstp, ne_eq, not_true_eq_false, if_false]
        split
        · -- keychain returned null
          exact Or.inr ⟨[approvedPatch, failedPatch "Cannot read wallet key"], rec₀, rfl, hstp, rfl⟩
        · split
          · -- unconfigured chain: throw after the approved patch
            exact Or.inr ⟨[approvedPatch], rec₀, rfl, hstp, rfl⟩
          · split
            · -- buildAndSignTx threw
              rename_i msg heq
              unfold approveCatch
              dsimp only
              split
              · exact Or.inr ⟨[approvedPatch, failedPatch msg], rec₀, rfl, hstp, rfl⟩
              · next st2 haa =>
                right
                refine ⟨[approvedPatch, failedPatch msg], rec₀, rfl, hstp, ?_⟩
                rw [auditAppend_ok_pendingItems haa]
                rfl
            · split
              · -- sendRawTransaction threw
                rename_i msg heq
                unfold approveCatch
                dsimp only
                split
                · exact Or.inr ⟨[approvedPatch, failedPatch msg], rec₀, rfl, hstp, rfl⟩
                · next st2 haa =>
                  right
                  refine ⟨[approvedPatch, failedPatch msg], rec₀, rfl, hstp, ?_⟩
                  rw [auditAppend_ok_pendingItems haa]
                  rfl
              · -- broadcast succeeded
                next txHash hsend =>
                split
                · -- audit append of send_approved threw: flipped to failed by the catch
                  rename_i msg heq
                  unfold approveCatch
                  dsimp only
                  split
                  · refine Or.inr ⟨[approvedPatch, sentPatch txHash, failedPatch msg], rec₀, rfl, hstp, ?_⟩
                    split <;> rfl
                  · next st2 haa =>
                    right
                    refine ⟨[approvedPatch, sentPatch txHash, failedPatch msg], rec₀, rfl, hstp, ?_⟩
                    rw [auditAppend_ok_pendingItems haa]
                    split <;> rfl
                · next st4 haa =>
                  right
                  refine ⟨[approvedPatch, sentPatch txHash], rec₀, rfl, hstp, ?_⟩
                  rw [auditAppend_ok_pendingItems haa]
                  split <;> rfl

/-! ## Claim-level helper functions over `Op` -/

/-- The request operations that run the chain/recipient policy gates
(`requestErc20Approve` runs neither, see its cascade). -/
def Op.checksPolicy : Op → Bool
  | .send _ => true
  | .erc20Transfer _ => true
  | .contractCall _ => true
  | _ => false

/-- The raw recipient/spender argument of a request operation. -/
def Op.recipientRaw : Op → String
  | .send p => p.toAddr
  | .erc20Approve p => p.spender
  | .erc20Transfer p => p.toAddr
  | .contractCall p => p.toAddr
  | .approve t => t
  | .reject t => t

/-- The chain a request operation resolves to (`params.chainId ?? defaultChainId`). -/
def Op.resolvedChain (cfg : ServiceConfig) : Op → Nat
  | .send p => p.chainId.getD cfg.defaultChainId
  | .erc20Approve p => p.chainId.getD cfg.defaultChainId
  | .erc20Transfer p => p.chainId.getD cfg.defaultChainId
  | .contractCall p => p.chainId.getD cfg.defaultChainId
  | _ => cfg.defaultChainId

/-! ## Concrete fixtures for witnesses and counterexamples

The addresses are all-lowercase 42-character hex strings; `fixValidate`
models viem `isAddress`/`getAddress` on them (all-lowercase addresses pass
validation and their checksummed form lowercases back to themselves, so the
identity is observationally faithful for the properties below). -/

def addrA : String := "0xaaaaaaaaaaaaaaaaaaaaaaaaaaaaaaaaaaaaaaaa"

def addrB : String := "0xbbbbbbbbbbbbbbbbbbbbbbbbbbbbbbbbbbbbbbbb"

def addrC : String := "0xcccccccccccccccccccccccccccccccccccccccc"

def fixValidate (s : String) : Option String :=
  if s = addrA ∨ s = addrB ∨ s = addrC then some s else none

/-- An RPC whose reads and broadcast all succeed. -/
def rpcOk : Rpc :=
  { getTransactionCount := fun _ => .ok 3
    estimateGas := fun _ _ _ _ => .ok 21000
    estimateFeesPerGas := .ok (100, 10)
    getGasPrice := .ok 50
    sendRawTransaction := fun _ => .ok "0xhash1" }

/-- A fully functional environment. -/
def envFix : Env :=
  { now := 0, today := "2026-10-11", newTxId := "id-1"
    validateAddress := fixValidate
    encApprove := fun s n => "approve:" ++ s ++ ":" ++ toString n
    encTransfer := fun t n => "transfer:" ++ t ++ ":" ++ toString n
    addrOfKey := fun _ => addrA
    keyFor := fun _ => some "0xkey"
    rpc := rpcOk
    sign := fun tx => .ok ("signed:" ++ toString tx.nonce) }

/-- One wallet `w`, set as default. -/
def stFix : ServiceState :=
  { walletState :=
    { defaultWalletId := some "w"
      wallets := [("w", { walletId := "w", address := addrA, createdAt := 0 })] } }

/-! ## Claims -/

/-- C1 (amended): for the three request operations that run the policy gates
(`requestSend`, `requestErc20Transfer`, `requestContractCall` — but not
`requestErc20Approve`, which runs neither gate), if the configured
`allowedChains` list is non-empty and the resolved chain is not in it, or the
configured `allowedRecipients` list is non-empty and the validated
recipient is not in it case-insensitively, then the operation fails, adds no
pending record (the whole state is unchanged), and broadcasts nothing. -/
theorem C1_request_policy_gate (cfg : ServiceConfig) (env : Env) (st : ServiceState)
    (op : Op) (hpol : op.checksPolicy = true)
    (hviol : allowedChainsViolated cfg.limits (op.resolvedChain cfg) = true ∨
      ∀ a, env.validateAddress op.recipientRaw = some a →
        allowedRecipientsViolated cfg.limits a = true) :
    (runStep cfg env st op).isOk = false ∧ (runStep cfg env st op).state = st ∧
    (runStep cfg env st op).broadcasts = [] := by
  cases op with
  | send p =>
    cases h : requestSendChecks cfg env st p with
    | error e => simp [runStep, requestSend_error h, Except.toBool, Except.isOk]
    | ok ctx =>
      exfalso
      obtain ⟨hva, hch, _, hac, har, _, _⟩ := requestSendChecks_ok_props h
      rcases hviol with hc | hr
      · simp only [Op.resolvedChain] at hc
        rw [← hch] at hc
        simp [hac] at hc
      · have hx := hr ctx.toAddr hva
        simp [har] at hx
  | erc20Transfer p =>
    cases h : requestErc20TransferChecks cfg env st p with
    | error e => simp [runStep, requestErc20Transfer_error h, Except.toBool, Except.isOk]
    | ok pr =>
      exfalso
      obtain ⟨hva, hch, hac, har⟩ := requestErc20TransferChecks_ok_props h
      rcases hviol with hc | hr
      · simp only [Op.resolvedChain] at hc
        rw [← hch] at hc
        simp [hac] at hc
      · have hx := hr pr.2 hva
        simp [har] at hx
  | contractCall p =>
    cases h : requestContractCallChecks cfg env st p with
    | error e => simp [runStep, requestContractCall_error h, Except.toBool, Except.isOk]
    | ok pr =>
      exfalso
      obtain ⟨hva, hch, hac, har⟩ := requestContractCallChecks_ok_props h
      rcases hviol with hc | hr
      · simp only [Op.resolvedChain] at hc
        rw [← hch] at hc
        simp [hac] at hc
      · have hx := hr pr.1.toAddr hva
        simp [har] at hx
  | erc20Approve p => exact Bool.noConfusion hpol
  | approve t => exact Bool.noConfusion hpol
  | reject t => exact Bool.noConfusion hpol

/-- Configuration with chains 1 and 5, `allowedChains = [1]` and
`allowedRecipients = [addrB]`. -/
def cfgC1 : ServiceConfig :=
  { chains := [(1, { chainId := 1, rpcUrl := "http://one" }),
               (5, { chainId := 5, rpcUrl := "http://five" })]
    defaultChainId := 1
    limits := some { allowedChains := some [1], allowedRecipients := some [addrB] } }

/-- C1 (counterexample): `requestErc20Approve` on chain 5 with spender
`addrC` violates both the `allowedChains` gate (non-empty, 5 absent) and the
`allowedRecipients` gate (non-empty, spender absent), yet the operation
succeeds and a pending record is persisted. -/
theorem C1_counterexample :
    allowedChainsViolated cfgC1.limits 5 = true ∧
    allowedRecipientsViolated cfgC1.limits addrC = true ∧
    (requestErc20Approve cfgC1 envFix stFix
      { chainId := some 5, tokenAddress := addrB, spender := addrC, amountWei := 7 }).result.isOk
      = true ∧
    (requestErc20Approve cfgC1 envFix stFix
      { chainId := some 5, tokenAddress := addrB, spender := addrC, amountWei := 7 }).state.pendingItems.length
      = stFix.pendingItems.length + 1 := by
  refine ⟨by rfl, by rfl, by rfl, by rfl⟩

/-- C1 (witness for the amended theorem): a `requestSend` on the disallowed
chain 5 is rejected with the state unchanged. -/
theorem C1_witness :
    (runStep cfgC1 envFix stFix (Op.send { chainId := some 5, toAddr := addrB, valueWei := 5 })).isOk = false ∧
    (runStep cfgC1 envFix stFix (Op.send { chainId := some 5, toAddr := addrB, valueWei := 5 })).state = stFix ∧
    (runStep cfgC1 envFix stFix (Op.send { chainId := some 5, toAddr := addrB, valueWei := 5 })).broadcasts = [] :=
  C1_request_policy_gate cfgC1 envFix stFix
    (Op.send { chainId := some 5, toAddr := addrB, valueWei := 5 })
    (by rfl) (Or.inl (by rfl))

/-- C3: `approveTx` on a stored record whose status is not `pending` returns
the "Tx status is ..." error naming the current status, performs no broadcast,
and leaves the whole state (in particular the stored record) unchanged. -/
theorem C3_approve_already_processed (cfg : ServiceConfig) (env : Env) (st : ServiceState)
    (txId : String) (p : PendingTx)
    (hget : pendingGet st.pendingItems txId = some p) (hstat : p.status ≠ .pending) :
    approveTx cfg env st txId
      = ⟨.ok (.failure ("Tx status is " ++ statusText p.status)), st, []⟩ := by
  simp [approveTx, hget, hstat]

/-- A stored pending transfer used by several scenarios. -/
def recP : PendingTx :=
  { txId := "t1", walletId := "w", chainId := 1, fromAddr := addrA, toAddr := addrB,
    valueWei := 5, createdAt := 0, status := .pending }

def stC3 : ServiceState := { stFix with pendingItems := [recP] }

/-- The state after rejecting `t1`. -/
def stC3r : ServiceState := (rejectTx envFix stC3 "t1").state

/-- C3 (witness): reject a pending transaction, then approve the same id —
the second call reports "Tx status is rejected" and changes nothing. -/
theorem C3_witness :
    approveTx cfgC1 envFix stC3r "t1"
      = ⟨.ok (.failure ("Tx status is " ++ statusText TxStatus.rejected)), stC3r, []⟩ :=
  C3_approve_already_processed cfgC1 envFix stC3r "t1"
    { recP with status := .rejected } (by rfl) (by decide)

/-- The stamped `send_expired` audit entry `approveTx` appends on expiry. -/
def stampedExpiredEntry (txId : String) (p : PendingTx) (iso : String) : AuditEntry :=
  { action := "send_expired", txId := some txId, walletId := some p.walletId,
    chainId := some p.chainId, atIso := some iso }

/-- C7: `approveTx` on a `pending` record older than the 30-minute TTL marks
it `failed` with the expiration error, appends a `send_expired` audit entry,
returns the expiration error to the caller, and broadcasts nothing (the
record never becomes `sent`). -/
theorem C7_approve_expired (cfg : ServiceConfig) (env : Env) (st : ServiceState)
    (txId : String) (p : PendingTx)
    (hget : pendingGet st.pendingItems txId = some p) (hstat : p.status = .pending)
    (hexp : env.now - p.createdAt > PENDING_TX_TTL_MS) (haudit : env.auditFail = false) :
    (approveTx cfg env st txId).result
      = .ok (.failure "Pending tx expired. Create a new transaction.") ∧
    pendingGet (approveTx cfg env st txId).state.pendingItems txId
      = some { p with status := .failed, error := some "Pending tx expired (>30min)" } ∧
    (approveTx cfg env st txId).state.audit
      = st.audit ++ [stampedExpiredEntry txId p env.nowIso] ∧
    (approveTx cfg env st txId).broadcasts = [] := by
  have h1 := pendingGet_update_self (failedPatch "Pending tx expired (>30min)") hget
  simp only [failedPatch, applyPatch, Option.getD_some] at h1
  simp [approveTx, hget, hstat, hexp, auditAppend, haudit, h1, failedPatch,
    stampedExpiredEntry]

/-- A clock 30 minutes and 1 ms past the creation of `recP`. -/
def envLate : Env := { envFix with now := 1800001 }

/-- C7 (witness): approving the half-hour-old `t1` fails with the expiration
error and marks the stored record `failed`. -/
theorem C7_witness :
    (approveTx cfgC1 envLate stC3 "t1").result
      = .ok (.failure "Pending tx expired. Create a new transaction.") ∧
    pendingGet (approveTx cfgC1 envLate stC3 "t1").state.pendingItems "t1"
      = some { recP with status := .failed, error := some "Pending tx expired (>30min)" } ∧
    (approveTx cfgC1 envLate stC3 "t1").state.audit
      = stC3.audit ++ [stampedExpiredEntry "t1" recP envLate.nowIso] ∧
    (approveTx cfgC1 envLate stC3 "t1").broadcasts = [] :=
  C7_approve_expired cfgC1 envLate stC3 "t1" recP (by rfl) (by rfl) (by decide) (by rfl)

/-- C4: once a stored record's status is terminal (`sent`, `failed` or
`rejected`), no state-changing service operation (any request, `approveTx` or
`rejectTx`) ever changes that record again: the record (position and value,
hence status) is preserved by every step. -/
theorem C4_terminal_status_stable (cfg : ServiceConfig) (env : Env) (st : ServiceState)
    (op : Op) {i : Nat} {p : PendingTx}
    (hp : st.pendingItems[i]? = some p) (hterm : p.status.isTerminal = true) :
    (runStep cfg env st op).state.pendingItems[i]? = some p := by
  have hupd : ∀ qs : List Patch, ∀ t rec₀, pendingGet st.pendingItems t = some rec₀ →
      rec₀.status = .pending →
      (qs.foldl (fun its q => pendingUpdate its t q) st.pendingItems)[i]? = some p := by
    intro qs t rec₀ hget hstp
    obtain ⟨j, hfi, hj⟩ := pendingGet_findIdx? hget
    have hij : i ≠ j := by
      intro hh
      subst hh
      rw [hp] at hj
      have hpr : p = rec₀ := (Option.some.injEq _ _).mp hj
      rw [hpr, hstp] at hterm
      simp [TxStatus.isTerminal] at hterm
    exact pendingUpdate_chain_preserves hij qs st.pendingItems hfi hp
  cases op with
  | send params =>
    rcases requestSend_items_shape cfg env st params with h | ⟨r, h⟩
    · simp only [runStep]; rw [h]; exact hp
    · simp only [runStep]; rw [h]; exact pendingAdd_getElem? st.pendingItems r hp
  | erc20Approve params =>
    rcases requestErc20Approve_items_shape cfg env st params with h | ⟨r, h⟩
    · simp only [runStep]; rw [h]; exact hp
    · simp only [runStep]; rw [h]; exact pendingAdd_getElem? st.pendingItems r hp
  | erc20Transfer params =>
    rcases requestErc20Transfer_items_shape cfg env st params with h | ⟨r, h⟩
    · simp only [runStep]; rw [h]; exact hp
    · simp only [runStep]; rw [h]; exact pendingAdd_getElem? st.pendingItems r hp
  | contractCall params =>
    rcases requestContractCall_items_shape cfg env st params with h | ⟨r, h⟩
    · simp only [runStep]; rw [h]; exact hp
    · simp only [runStep]; rw [h]; exact pendingAdd_getElem? st.pendingItems r hp
  | approve t =>
    rcases approveTx_items_shape cfg env st t with h | ⟨qs, rec₀, hget, hstp, h⟩
    · simp only [runStep]; rw [h]; exact hp
    · simp only [runStep]; rw [h]; exact hupd qs t rec₀ hget hstp
  | reject t =>
    rcases rejectTx_items_shape env st t with h | ⟨rec₀, hget, hstp, h⟩
    · simp only [runStep]; rw [h]; exact hp
    · simp only [runStep]; rw [h]
      exact hupd [rejectedPatch] t rec₀ hget hstp

/-- A state holding one `sent` record followed by a fresh `pending` one. -/
def stC4 : ServiceState :=
  { stFix with pendingItems :=
      [{ recP with txId := "t0", status := .sent, txHash := some "0xold" }, recP] }

/-- C4 (witness): approving the pending `t1` leaves the terminal `t0` record
(at position 0) untouched. -/
theorem C4_witness :
    (runStep cfgC1 envFix stC4 (Op.approve "t1")).state.pendingItems[0]?
      = some { recP with txId := "t0", status := .sent, txHash := some "0xold" } :=
  C4_terminal_status_stable cfgC1 envFix stC4 (Op.approve "t1") (by rfl) (by decide)

/-- C6 (amended): on a non-expired `pending` record whose chain is configured
(and with the audit file writable), `approveTx` never throws and never leaves
the record `approved`: every exception raised during signing or broadcast is
caught and recorded — the record ends `sent` carrying the returned hash, or
`failed` carrying exactly the error message the caller receives. -/
theorem C6_sign_broadcast_failures_caught (cfg : ServiceConfig) (env : Env)
    (st : ServiceState) (txId : String) (p : PendingTx)
    (hget : pendingGet st.pendingItems txId = some p) (hstat : p.status = .pending)
    (hfresh : ¬ (env.now - p.createdAt > PENDING_TX_TTL_MS))
    (hchain : chainsHas cfg p.chainId = true) (haudit : env.auditFail = false) :
    ∃ q, pendingGet (approveTx cfg env st txId).state.pendingItems txId = some q ∧
      q.status ≠ .approved ∧
      ((∃ h, (approveTx cfg env st txId).result = .ok (.success h p.chainId) ∧
          q.status = .sent ∧ q.txHash = some h) ∨
       (∃ m, (approveTx cfg env st txId).result = .ok (.failure m) ∧
          q.status = .failed ∧ q.error = some m)) := by
  have h1 := pendingGet_update_self approvedPatch hget
  unfold approveTx
  rw [hget]
  simp only [hstat, ne_eq, not_true_eq_false, if_false, hfresh]
  cases hk : env.keyFor p.walletId with
  | none =>
    simp only [hk]
    have h2 := pendingGet_update_self (failedPatch "Cannot read wallet key") h1
    exact ⟨_, h2, by simp [applyPatch, failedPatch, approvedPatch], Or.inr ⟨_, rfl, rfl, rfl⟩⟩
  | some key =>
    simp only [hk]
    rw [if_neg (by simp [hchain])]
    cases hb : buildAndSignTx env
        { privateKeyHex := key, chainId := p.chainId, toAddr := p.toAddr,
          valueWei := p.valueWei, data := p.data, gasLimit := p.gasLimit,
          gasPrice := p.gasPrice, maxFeePerGas := p.maxFeePerGas,
          maxPriorityFeePerGas := p.maxPriorityFeePerGas, nonce := p.nonce } with
    | error msg =>
      simp only [hb, approveCatch, auditAppend, haudit, Bool.false_eq_true, if_false]
      have h2 := pendingGet_update_self (failedPatch msg) h1
      exact ⟨_, h2, by simp [applyPatch, failedPatch, approvedPatch], Or.inr ⟨_, rfl, rfl, rfl⟩⟩
    | ok pr =>
      obtain ⟨signedHex, n⟩ := pr
      simp only [hb]
      cases hs : env.rpc.sendRawTransaction signedHex with
      | error msg =>
        simp only [hs, approveCatch, auditAppend, haudit, Bool.false_eq_true, if_false]
        have h2 := pendingGet_update_self (failedPatch msg) h1
        exact ⟨_, h2, by simp [applyPatch, failedPatch, approvedPatch], Or.inr ⟨_, rfl, rfl, rfl⟩⟩
      | ok txHash =>
        simp only [hs, auditAppend, haudit, Bool.false_eq_true, if_false]
        have h2 := pendingGet_update_self (sentPatch txHash) h1
        cases hdl : dailyLimitConfigured cfg.limits with
        | true =>
          simp only [hdl, if_true]
          exact ⟨_, h2, by simp [applyPatch, sentPatch, approvedPatch], Or.inl ⟨txHash, rfl, rfl, rfl⟩⟩
        | false =>
          simp only [hdl, Bool.false_eq_true, if_false]
          exact ⟨_, h2, by simp [applyPatch, sentPatch, approvedPatch], Or.inl ⟨txHash, rfl, rfl, rfl⟩⟩

/-- A pending contract-call record on the unconfigured chain 999. -/
def recC6 : PendingTx := { recP with txId := "t9", chainId := 999 }

def stC6 : ServiceState := { stFix with pendingItems := [recC6] }

/-- C6 (counterexample): when the stored record's chain is not configured,
`getRpc` throws after the optimistic-lock update and outside the try/catch:
`approveTx` propagates the exception and the record is left with status
`approved` — contradicting "never returns (or throws) leaving the record
`approved`, and never propagates an unhandled exception". -/
theorem C6_counterexample :
    (approveTx cfgC1 envFix stC6 "t9").result = .error "Chain 999 not configured" ∧
    pendingGet (approveTx cfgC1 envFix stC6 "t9").state.pendingItems "t9"
      = some { recC6 with status := .approved } := by
  refine ⟨by rfl, by rfl⟩

/-- A wallet whose key the keychain cannot produce. -/
def envNoKey : Env := { envFix with keyFor := fun _ => none }

/-- C6 (witness for the amended theorem): with the configured chain 1 and a
keychain miss, `approveTx` returns an error result and the record ends
`failed`, never `approved`. -/
theorem C6_witness :
    ∃ q, pendingGet (approveTx cfgC1 envNoKey stC3 "t1").state.pendingItems "t1" = some q ∧
      q.status ≠ .approved ∧
      ((∃ h, (approveTx cfgC1 envNoKey stC3 "t1").result = .ok (.success h recP.chainId) ∧
          q.status = .sent ∧ q.txHash = some h) ∨
       (∃ m, (approveTx cfgC1 envNoKey stC3 "t1").result = .ok (.failure m) ∧
          q.status = .failed ∧ q.error = some m)) :=
  C6_sign_broadcast_failures_caught cfgC1 envNoKey stC3 "t1" recP
    (by rfl) (by rfl) (by decide) (by rfl) (by rfl)

/-- C9: a successful `approveTx` (result carries a transaction hash) touches
the daily-spend record exactly when `limits.dailyLimit` is set to a non-blank
string, in which case it adds the approved record's `valueWei` (zero included)
for the current UTC day; with `dailyLimit` unset or blank the daily-spend
record is left unchanged. -/
theorem C9_daily_spend_frame (cfg : ServiceConfig) (env : Env) (st : ServiceState)
    (txId : String) (p : PendingTx) (h : String) (c : Nat)
    (hget : pendingGet st.pendingItems txId = some p)
    (hsucc : (approveTx cfg env st txId).result = .ok (.success h c)) :
    (approveTx cfg env st txId).state.dailySpend
      = (if dailyLimitConfigured cfg.limits then addSpend env.today p.valueWei st.dailySpend
         else st.dailySpend) := by
  unfold approveTx at hsucc ⊢
  rw [hget] at hsucc ⊢
  by_cases hstat : p.status = .pending
  · simp only [hstat, ne_eq, not_true_eq_false, if_false] at hsucc ⊢
    by_cases hexp : env.now - p.createdAt > PENDING_TX_TTL_MS
    · rw [if_pos hexp] at hsucc
      split at hsucc <;> simp at hsucc
    · rw [if_neg hexp] at hsucc ⊢
      cases hk : env.keyFor p.walletId with
      | none => simp only [hk] at hsucc; simp at hsucc
      | some key =>
        simp only [hk] at hsucc ⊢
        by_cases hch : chainsHas cfg p.chainId
        · rw [if_neg (by simp [hch])] at hsucc ⊢
          split at hsucc
          · unfold approveCatch at hsucc
            dsimp only at hsucc
            split at hsucc <;> simp at hsucc
          · split at hsucc
            · unfold approveCatch at hsucc
              dsimp only at hsucc
              split at hsucc <;> simp at hsucc
            · split at hsucc
              · unfold approveCatch at hsucc
                dsimp only at hsucc
                split at hsucc <;> simp at hsucc
              · rename_i st4 haa
                rw [auditAppend_ok haa]
                split <;> rfl
        · rw [if_pos (by simp [hch])] at hsucc
          simp at hsucc
  · simp only [hstat, ne_eq, not_false_eq_true, if_true] at hsucc
    simp at hsucc

/-- A configuration like `cfgC1` but with an open recipient policy and a
configured daily limit. -/
def cfgC9 : ServiceConfig :=
  { chains := [(1, { chainId := 1, rpcUrl := "http://one" })]
    defaultChainId := 1
    limits := some { dailyLimit := some "10" } }

/-- C9 (witness): approving the pending `t1` under a configured `dailyLimit`
of 10 adds its 5 wei to today's daily-spend record. -/
theorem C9_witness :
    (approveTx cfgC9 envFix stC3 "t1").state.dailySpend
      = (if dailyLimitConfigured cfgC9.limits then addSpend envFix.today recP.valueWei stC3.dailySpend
         else stC3.dailySpend) :=
  C9_daily_spend_frame cfgC9 envFix stC3 "t1" recP "0xhash1" 1 (by rfl) (by rfl)

/-- C10: a `queryHistory` call whose filter omits `limit` (a missing filter
included) returns the filtered entries most-recent-first (the reverse of
append order) capped at the default of 50 entries. -/
theorem C10_query_default_limit (st : ServiceState) (filter : Option AuditLogFilter)
    (hlim : (filter.bind fun f => f.limit) = none) :
    queryHistory st filter = ((auditFiltered st.audit filter).reverse).take 50 ∧
    (queryHistory st filter).length ≤ 50 := by
  unfold queryHistory auditQuery
  rw [hlim]
  refine ⟨by simp [jsSlice0], ?_⟩
  simp [jsSlice0, List.length_take]

/-- A state carrying two audit entries. -/
def stQ : ServiceState :=
  { stFix with audit := [{ action := "send_requested", txId := some "t1" },
                         { action := "send_approved", txId := some "t1" }] }

/-- C10 (witness): a filterless query on a two-entry log returns the log
reversed, at most 50 entries. -/
theorem C10_witness :
    queryHistory stQ none = ((auditFiltered stQ.audit none).reverse).take 50 ∧
    (queryHistory stQ none).length ≤ 50 :=
  C10_query_default_limit stQ none rfl

/-- `buildAndSignTx` never reads the override fields: replacing all of them
changes nothing about the transaction it builds. -/
theorem buildTxRequest_ignores_overrides (env : Env) (p : BuildParams)
    (g gp mf mp : Option Int) (n : Option Nat) :
    buildTxRequest env
      { p with gasLimit := g, gasPrice := gp, maxFeePerGas := mf,
               maxPriorityFeePerGas := mp, nonce := n }
      = buildTxRequest env p := rfl

/-- Build parameters carrying an explicit nonce 7 and gas limit 50000, as a
stored `requestContractCall` record supplies them. -/
def bpC5 : BuildParams :=
  { privateKeyHex := "0xkey", chainId := 1, toAddr := addrB, valueWei := 0,
    data := some "0xdead", gasLimit := some 50000, nonce := some 7 }

/-- A signer that reveals which nonce and gas limit were signed. -/
def envC5 : Env :=
  { envFix with sign := fun tx => .ok ("nonce:" ++ toString tx.nonce ++ ":gas:" ++ toString tx.gas) }

/-- A stored contract-call record carrying the explicit overrides. -/
def recC5 : PendingTx :=
  { recP with txId := "t5", data := some "0xdead", gasLimit := some 50000, nonce := some 7 }

def stC5 : ServiceState := { stFix with pendingItems := [recC5] }

/-- C5: the transaction builder ignores the supplied overrides.  Against an
RPC returning transaction count 3 and gas estimate 21000, parameters carrying
nonce 7 and gasLimit 50000 produce a transaction with nonce 3 (the RPC count)
and gas 31000 (estimate plus the 10000 buffer) — and `approveTx` of a stored
contract-call record carrying those overrides signs exactly that transaction. -/
theorem C5_overrides_ignored :
    bpC5.nonce = some 7 ∧ bpC5.gasLimit = some 50000 ∧
    buildTxRequest envFix bpC5
      = .ok { nonce := 3, chainId := 1, toAddr := addrB, value := 0, gas := 31000,
              fee := .eip1559 120 12, data := "0xdead" } ∧
    recC5.nonce = some 7 ∧ recC5.gasLimit = some 50000 ∧
    (approveTx cfgC9 envC5 stC5 "t5").broadcasts = ["nonce:3:gas:31000"] := by
  refine ⟨rfl, rfl, by rfl, rfl, rfl, by rfl⟩

/-- An environment whose audit-file writes fail. -/
def envAF : Env := { envFix with auditFail := true }

/-- C8 (amended): a failing audit append never rolls back the state changes
already made, but the operation does not complete successfully.  Every one of
the four request operations whose validation cascade passes still persists
its pending record and then propagates the audit error; `approveTx`\'s success
path still broadcasts and still records the daily spend, then its own catch
flips the freshly `sent` record to `failed` (keeping the broadcast hash) and
propagates the audit error. -/
theorem C8_audit_failure_after_persist (cfg : ServiceConfig) (env : Env)
    (st : ServiceState) (haf : env.auditFail = true) :
    (∀ params ctx, requestSendChecks cfg env st params = .ok ctx →
      (requestSend cfg env st params).result = .error auditFailMsg ∧
      (requestSend cfg env st params).state.pendingItems
        = pendingAdd st.pendingItems (mkSendPending env ctx params.valueWei)) ∧
    (∀ params pr, requestErc20ApproveChecks cfg env st params = .ok pr →
      (requestErc20Approve cfg env st params).result = .error auditFailMsg ∧
      (requestErc20Approve cfg env st params).state.pendingItems
        = pendingAdd st.pendingItems (mkApprovePending env pr.1 pr.2 params.amountWei)) ∧
    (∀ params pr, requestErc20TransferChecks cfg env st params = .ok pr →
      (requestErc20Transfer cfg env st params).result = .error auditFailMsg ∧
      (requestErc20Transfer cfg env st params).state.pendingItems
        = pendingAdd st.pendingItems (mkTransferPending env pr.1 pr.2 params.amountWei)) ∧
    (∀ params pr, requestContractCallChecks cfg env st params = .ok pr →
      (requestContractCall cfg env st params).result = .error auditFailMsg ∧
      (requestContractCall cfg env st params).state.pendingItems
        = pendingAdd st.pendingItems (mkCallPending env pr.1 pr.2 params)) ∧
    (∀ txId p key sx n txHash,
      pendingGet st.pendingItems txId = some p → p.status = .pending →
      ¬ (env.now - p.createdAt > PENDING_TX_TTL_MS) →
      env.keyFor p.walletId = some key → chainsHas cfg p.chainId = true →
      buildAndSignTx env
        { privateKeyHex := key, chainId := p.chainId, toAddr := p.toAddr,
          valueWei := p.valueWei, data := p.data, gasLimit := p.gasLimit,
          gasPrice := p.gasPrice, maxFeePerGas := p.maxFeePerGas,
          maxPriorityFeePerGas := p.maxPriorityFeePerGas, nonce := p.nonce }
        = .ok (sx, n) →
      env.rpc.sendRawTransaction sx = .ok txHash →
      (approveTx cfg env st txId).result = .error auditFailMsg ∧
      (approveTx cfg env st txId).broadcasts = [sx] ∧
      (approveTx cfg env st txId).state.dailySpend
        = (if dailyLimitConfigured cfg.limits then addSpend env.today p.valueWei st.dailySpend
           else st.dailySpend) ∧
      pendingGet (approveTx cfg env st txId).state.pendingItems txId
        = some (applyPatch (applyPatch (applyPatch p approvedPatch) (sentPatch txHash))
            (failedPatch auditFailMsg))) := by
  refine ⟨?_, ?_, ?_, ?_, ?_⟩
  · intro params ctx h
    unfold requestSend
    rw [h]
    simp [auditAppend, haf]
  · intro params pr h
    unfold requestErc20Approve
    rw [h]
    simp [auditAppend, haf]
  · intro params pr h
    unfold requestErc20Transfer
    rw [h]
    simp [auditAppend, haf]
  · intro params pr h
    unfold requestContractCall
    rw [h]
    simp [auditAppend, haf]
  · intro txId p key sx n txHash hget hstat hfresh hk hch hb hs
    have h1 := pendingGet_update_self approvedPatch hget
    have h2 := pendingGet_update_self (sentPatch txHash) h1
    have h3 := pendingGet_update_self (failedPatch auditFailMsg) h2
    unfold approveTx
    rw [hget]
    simp only [hstat, ne_eq, not_true_eq_false, if_false, hfresh, hk]
    rw [if_neg (by simp [hch])]
    simp only [hb, hs, approveCatch, auditAppend, haf, if_true]
    cases hdl : dailyLimitConfigured cfg.limits with
    | true =>
      simp only [hdl, if_true]
      exact ⟨by trivial, by trivial, by trivial, h3⟩
    | false =>
      simp only [hdl, Bool.false_eq_true, if_false]
      exact ⟨by trivial, by trivial, by trivial, h3⟩

/-- The record the failing-audit approve path leaves behind: `failed`, yet
carrying the hash of the transaction it did broadcast. -/
def recC8 : PendingTx :=
  { recP with status := .failed, txHash := some "0xhash1", error := some auditFailMsg }

/-- C8 (counterexample): with a failing audit file, `requestSend` persists
the pending record but throws instead of completing, and the success path of
`approveTx` still records the daily spend yet flips the freshly `sent`
record to `failed` (keeping the hash it obtained from the broadcast) and
returns an error — the `sent` status is not preserved and neither operation
completes successfully. -/
theorem C8_counterexample :
    (requestSend cfgC9 envAF stFix { toAddr := addrB, valueWei := 5 }).result
      = .error auditFailMsg ∧
    (requestSend cfgC9 envAF stFix { toAddr := addrB, valueWei := 5 }).state.pendingItems.length
      = 1 ∧
    (approveTx cfgC9 envAF stC3 "t1").result = .error auditFailMsg ∧
    (approveTx cfgC9 envAF stC3 "t1").state.dailySpend
      = { date := "2026-10-11", totalWei := 5 } ∧
    pendingGet (approveTx cfgC9 envAF stC3 "t1").state.pendingItems "t1" = some recC8 := by
  refine ⟨by rfl, by rfl, by rfl, by rfl, by rfl⟩

/-- C8 (witness of the amended theorem): the concrete failing-audit send and
the concrete failing-audit approve, where the daily-spend update stands. -/
theorem C8_witness :
    (requestSend cfgC9 envAF stFix { toAddr := addrB, valueWei := 5 }).result
      = .error auditFailMsg ∧
    (requestSend cfgC9 envAF stFix { toAddr := addrB, valueWei := 5 }).state.pendingItems
      = pendingAdd stFix.pendingItems
          (mkSendPending envAF ⟨"w", { walletId := "w", address := addrA, createdAt := 0 }, addrB, 1⟩ 5) ∧
    (approveTx cfgC9 envAF stC3 "t1").result = .error auditFailMsg ∧
    (approveTx cfgC9 envAF stC3 "t1").broadcasts = ["signed:3"] ∧
    (approveTx cfgC9 envAF stC3 "t1").state.dailySpend
      = (if dailyLimitConfigured cfgC9.limits
         then addSpend envAF.today recP.valueWei stC3.dailySpend else stC3.dailySpend) := by
  have hsend := (C8_audit_failure_after_persist cfgC9 envAF stFix rfl).1
    { toAddr := addrB, valueWei := 5 }
    ⟨"w", { walletId := "w", address := addrA, createdAt := 0 }, addrB, 1⟩ (by rfl)
  have happ := (C8_audit_failure_after_persist cfgC9 envAF stC3 rfl).2.2.2.2
    "t1" recP "0xkey" "signed:3" 3 "0xhash1" (by rfl) rfl (by decide) rfl rfl (by rfl) rfl
  exact ⟨hsend.1, hsend.2, happ.1, happ.2.1, happ.2.2.1⟩

/-! ## Daily-limit accounting over serialized traces (C2) -/

/-- Sum of `valueWei` over the stored records whose status is `sent`. -/
def sumSent (items : List PendingTx) : Int :=
  (items.map (fun p => if p.status = .sent then p.valueWei else 0)).sum

theorem sumSent_append (l : List PendingTx) (r : PendingTx) :
    sumSent (l ++ [r]) = sumSent l + (if r.status = .sent then r.valueWei else 0) := by
  simp [sumSent]

theorem dayTotal_addSpend (d : String) (v : Int) (r : DailySpendRecord) :
    dayTotal d (addSpend d v r) = dayTotal d r + v := by
  by_cases h : r.date = d <;> simp [dayTotal, addSpend, h]

theorem dailyLimitConfigured_true {limits : Option WalletsLimits} {s : String}
    (hdl : limits.bind (·.dailyLimit) = some s) (hnb : ¬ jsTrim s = "") :
    dailyLimitConfigured limits = true := by
  simp [dailyLimitConfigured, hdl, hnb]

/-- A passing `dailyCheckSend` projection bounds the new total by the parsed
limit. -/
theorem dailyCheckSend_le {limits : Option WalletsLimits} {spent v : Int} {s : String}
    {L : Int} (hdl : limits.bind (·.dailyLimit) = some s) (hnb : ¬ jsTrim s = "")
    (hparse : jsBigInt? s = some L)
    (h : dailyCheckSend limits spent v = .ok ()) : spent + v ≤ L := by
  unfold dailyCheckSend at h
  rw [hdl] at h
  simp only [if_neg hnb, hparse] at h
  by_cases hgt : spent + v > L
  · simp [hgt] at h
  · omega

/-- `approveTx` on a store whose last record is a fresh pending id: the
operation patches only that record, and the daily-spend record moves exactly
when the record ends `sent` (by the record's value, under a configured daily
limit). -/
theorem approveTx_fresh_last (cfg : ServiceConfig) (env : Env) (st : ServiceState)
    (t : String) (items : List PendingTx) (rec : PendingTx)
    (hitems : st.pendingItems = items ++ [rec]) (hid : rec.txId = t)
    (hfresh : ∀ p ∈ items, p.txId ≠ t) (hstat : rec.status = .pending)
    (haudit : env.auditFail = false) :
    (∃ rec', (approveTx cfg env st t).state.pendingItems = items ++ [rec'] ∧
       rec'.txId = t ∧ rec'.status ≠ .sent ∧
       (approveTx cfg env st t).state.dailySpend = st.dailySpend) ∨
    (∃ rec', (approveTx cfg env st t).state.pendingItems = items ++ [rec'] ∧
       rec'.txId = t ∧ rec'.status = .sent ∧ rec'.valueWei = rec.valueWei ∧
       (approveTx cfg env st t).state.dailySpend
         = (if dailyLimitConfigured cfg.limits then addSpend env.today rec.valueWei st.dailySpend
            else st.dailySpend)) := by
  have hget : pendingGet st.pendingItems t = some rec := by
    rw [hitems]
    exact pendingGet_append_fresh hfresh hid
  have hupd1 : pendingUpdate st.pendingItems t approvedPatch
      = items ++ [applyPatch rec approvedPatch] := by
    rw [hitems]
    exact pendingUpdate_append_fresh approvedPatch hfresh hid
  have hid1 : (applyPatch rec approvedPatch).txId = t := by rw [applyPatch_txId]; exact hid
  unfold approveTx
  rw [hget]
  simp only [hstat, ne_eq, not_true_eq_false, if_false]
  by_cases hexp : env.now - rec.createdAt > PENDING_TX_TTL_MS
  · rw [if_pos hexp]
    simp only [auditAppend, haudit, Bool.false_eq_true, if_false]
    left
    refine ⟨applyPatch rec (failedPatch "Pending tx expired (>30min)"), ?_, ?_, ?_, ?_⟩
    · rw [hitems]
      exact pendingUpdate_append_fresh _ hfresh hid
    · rw [applyPatch_txId]
      exact hid
    · simp [applyPatch, failedPatch]
    · trivial
  · rw [if_neg hexp]
    cases hk : env.keyFor rec.walletId with
    | none =>
      simp only [hk]
      left
      refine ⟨applyPatch (applyPatch rec approvedPatch) (failedPatch "Cannot read wallet key"),
        ?_, ?_, ?_, ?_⟩
      · rw [hupd1, pendingUpdate_append_fresh _ hfresh hid1]
      · rw [applyPatch_txId, applyPatch_txId]
        exact hid
      · simp [applyPatch, failedPatch]
      · trivial
    | some key =>
      simp only [hk]
      by_cases hch : chainsHas cfg rec.chainId
      · rw [if_neg (by simp [hch])]
        cases hb : buildAndSignTx env
            { privateKeyHex := key, chainId := rec.chainId, toAddr := rec.toAddr,
              valueWei := rec.valueWei, data := rec.data, gasLimit := rec.gasLimit,
              gasPrice := rec.gasPrice, maxFeePerGas := rec.maxFeePerGas,
              maxPriorityFeePerGas := rec.maxPriorityFeePerGas, nonce := rec.nonce } with
        | error msg =>
          simp only [hb, approveCatch, auditAppend, haudit, Bool.false_eq_true, if_false]
          left
          refine ⟨applyPatch (applyPatch rec approvedPatch) (failedPatch msg), ?_, ?_, ?_, ?_⟩
          · rw [hupd1, pendingUpdate_append_fresh _ hfresh hid1]
          · rw [applyPatch_txId, applyPatch_txId]
            exact hid
          · simp [applyPatch, failedPatch]
          · trivial
        | ok pr =>
          obtain ⟨signedHex, n⟩ := pr
          simp only [hb]
          cases hs : env.rpc.sendRawTransaction signedHex with
          | error msg =>
            simp only [hs, approveCatch, auditAppend, haudit, Bool.false_eq_true, if_false]
            left
            refine ⟨applyPatch (applyPatch rec approvedPatch) (failedPatch msg), ?_, ?_, ?_, ?_⟩
            · rw [hupd1, pendingUpdate_append_fresh _ hfresh hid1]
            · rw [applyPatch_txId, applyPatch_txId]
              exact hid
            · simp [applyPatch, failedPatch]
            · trivial
          | ok txHash =>
            simp only [hs, auditAppend, haudit, Bool.false_eq_true, if_false]
            right
            refine ⟨applyPatch (applyPatch rec approvedPatch) (sentPatch txHash),
              ?_, ?_, rfl, rfl, ?_⟩
            · cases hdl : dailyLimitConfigured cfg.limits with
              | true =>
                simp only [hdl, if_true]
                rw [hupd1, pendingUpdate_append_fresh _ hfresh hid1]
              | false =>
                simp only [hdl, Bool.false_eq_true, if_false]
                rw [hupd1, pendingUpdate_append_fresh _ hfresh hid1]
            · rw [applyPatch_txId, applyPatch_txId]
              exact hid
            · cases hdl : dailyLimitConfigured cfg.limits with
              | true => simp only [hdl, if_true]
              | false => simp only [hdl, Bool.false_eq_true, if_false]
      · rw [if_pos (by simp [hch])]
        left
        refine ⟨applyPatch rec approvedPatch, hupd1, hid1, ?_, ?_⟩
        · simp [applyPatch, approvedPatch]
        · trivial

/-- One requestSend immediately followed by the approval of the id it
returned (each call with its own environment). -/
structure SendPair where
  params : SendParams
  reqEnv : Env
  appEnv : Env

/-- Run a request/approve pair; a failed request skips the approval. -/
def runPair (cfg : ServiceConfig) (st : ServiceState) (pr : SendPair) : ServiceState :=
  let r := requestSend cfg pr.reqEnv st pr.params
  match r.result with
  | .error _ => r.state
  | .ok out => (approveTx cfg pr.appEnv r.state out.1).state

def runPairs (cfg : ServiceConfig) (pairs : List SendPair) (st : ServiceState) : ServiceState :=
  pairs.foldl (fun st pr => runPair cfg st pr) st

/-- Trace invariant: the sent total is covered by the day's ledger total,
the ledger total respects the limit, and every stored id was issued by the
trace so far. -/
def PairInv (d : String) (L : Int) (used : List String) (st : ServiceState) : Prop :=
  sumSent st.pendingItems ≤ dayTotal d st.dailySpend ∧
  dayTotal d st.dailySpend ≤ L ∧
  ∀ p ∈ st.pendingItems, p.txId ∈ used

theorem runPair_inv (cfg : ServiceConfig) (d s : String) (L : Int) (used : List String)
    (pr : SendPair) (st : ServiceState)
    (hdl : cfg.limits.bind (·.dailyLimit) = some s) (hnb : ¬ jsTrim s = "")
    (hparse : jsBigInt? s = some L)
    (htr : pr.reqEnv.today = d) (hta : pr.appEnv.today = d)
    (hafr : pr.reqEnv.auditFail = false) (hafa : pr.appEnv.auditFail = false)
    (hfresh : pr.reqEnv.newTxId ∉ used)
    (hinv : PairInv d L used st) :
    PairInv d L (used ++ [pr.reqEnv.newTxId]) (runPair cfg st pr) := by
  obtain ⟨hsum, htot, hids⟩ := hinv
  unfold runPair
  dsimp only
  cases hc : requestSendChecks cfg pr.reqEnv st pr.params with
  | error e =>
    rw [requestSend_error hc]
    exact ⟨hsum, htot, fun p hp => List.mem_append_left _ (hids p hp)⟩
  | ok ctx =>
    obtain ⟨hitems, hds, hws, hok, hres, hbc⟩ := requestSend_ok hc
    obtain ⟨hva, hch, hchains, hacv, harv, hvpos, hdaily⟩ := requestSendChecks_ok_props hc
    rw [hres hafr]
    dsimp only
    have hfreshAll : ∀ p ∈ st.pendingItems,
        p.txId ≠ (mkSendPending pr.reqEnv ctx pr.params.valueWei).txId := by
      intro p hp heq
      apply hfresh
      have hmk : (mkSendPending pr.reqEnv ctx pr.params.valueWei).txId = pr.reqEnv.newTxId := rfl
      rw [hmk] at heq
      rw [← heq]
      exact hids p hp
    have hadd : (requestSend cfg pr.reqEnv st pr.params).state.pendingItems
        = st.pendingItems ++ [mkSendPending pr.reqEnv ctx pr.params.valueWei] := by
      rw [hitems]
      exact pendingAdd_fresh hfreshAll
    rcases approveTx_fresh_last cfg pr.appEnv (requestSend cfg pr.reqEnv st pr.params).state
        pr.reqEnv.newTxId st.pendingItems (mkSendPending pr.reqEnv ctx pr.params.valueWei)
        hadd rfl (fun p hp => hfreshAll p hp) rfl hafa with hcase | hcase
    · obtain ⟨rec', hpi, hid', hns, hdsp⟩ := hcase
      refine ⟨?_, ?_, ?_⟩
      · rw [hpi, sumSent_append, if_neg hns, hdsp, hds]
        simpa using hsum
      · rw [hdsp, hds]
        exact htot
      · intro p hp
        rw [hpi] at hp
        rcases List.mem_append.mp hp with h | h
        · exact List.mem_append_left _ (hids p h)
        · have hpr : p = rec' := by simpa using h
          rw [hpr, hid']
          exact List.mem_append_right _ (by simp)
    · obtain ⟨rec', hpi, hid', hsent, hval, hdsp⟩ := hcase
      have hconf : dailyLimitConfigured cfg.limits = true := dailyLimitConfigured_true hdl hnb
      rw [htr] at hdaily
      have hle : dayTotal d st.dailySpend + pr.params.valueWei ≤ L :=
        dailyCheckSend_le hdl hnb hparse hdaily
      have hmkv : (mkSendPending pr.reqEnv ctx pr.params.valueWei).valueWei
          = pr.params.valueWei := rfl
      have htot' : dayTotal d (approveTx cfg pr.appEnv
            (requestSend cfg pr.reqEnv st pr.params).state pr.reqEnv.newTxId).state.dailySpend
          = dayTotal d st.dailySpend + pr.params.valueWei := by
        rw [hdsp, if_pos hconf, hta, hds, dayTotal_addSpend, hmkv]
      refine ⟨?_, ?_, ?_⟩
      · rw [hpi, sumSent_append, if_pos hsent, hval, hmkv, htot']
        have : sumSent st.pendingItems ≤ dayTotal d st.dailySpend := hsum
        linarith
      · rw [htot']
        exact hle
      · intro p hp
        rw [hpi] at hp
        rcases List.mem_append.mp hp with h | h
        · exact List.mem_append_left _ (hids p h)
        · have hpr : p = rec' := by simpa using h
          rw [hpr, hid']
          exact List.mem_append_right _ (by simp)

theorem runPairs_inv (cfg : ServiceConfig) (d s : String) (L : Int)
    (hdl : cfg.limits.bind (·.dailyLimit) = some s) (hnb : ¬ jsTrim s = "")
    (hparse : jsBigInt? s = some L) :
    ∀ (pairs : List SendPair) (used : List String) (st : ServiceState),
      (∀ pr ∈ pairs, pr.reqEnv.today = d ∧ pr.appEnv.today = d ∧
        pr.reqEnv.auditFail = false ∧ pr.appEnv.auditFail = false) →
      (pairs.map (fun pr => pr.reqEnv.newTxId)).Nodup →
      (∀ pr ∈ pairs, pr.reqEnv.newTxId ∉ used) →
      PairInv d L used st →
      ∃ used', PairInv d L used' (runPairs cfg pairs st) := by
  intro pairs
  induction pairs with
  | nil =>
    intro used st _ _ _ hinv
    exact ⟨used, hinv⟩
  | cons pr rest ih =>
    intro used st henv hnd hdisj hinv
    obtain ⟨h1, h2, h3, h4⟩ := henv pr (by simp)
    have step := runPair_inv cfg d s L used pr st hdl hnb hparse h1 h2 h3 h4
      (hdisj pr (by simp)) hinv
    have hfold : runPairs cfg (pr :: rest) st = runPairs cfg rest (runPair cfg st pr) := rfl
    rw [hfold]
    have hnd2 : (∀ x ∈ rest, ¬ x.reqEnv.newTxId = pr.reqEnv.newTxId) ∧
        (rest.map (fun pr => pr.reqEnv.newTxId)).Nodup := by simpa using hnd
    refine ih (used ++ [pr.reqEnv.newTxId]) (runPair cfg st pr) ?_ ?_ ?_ step
    · intro q hq
      exact henv q (by simp [hq])
    · exact hnd2.2
    · intro q hq
      simp only [List.mem_append, List.mem_singleton]
      rintro (hmem | hmem)
      · exact hdisj q (by simp [hq]) hmem
      · exact hnd2.1 q hq hmem

/-- C2 (amended): over any serialized trace in which each `requestSend` is
approved before the next request is made — all within one UTC day, with a
configured non-blank `dailyLimit` parsing to `L ≥ 0`, fresh distinct ids, an
initially empty pending store and an initial day total within the limit —
the sum of `valueWei` over the records that reach `sent` is at most `L`. -/
theorem C2_daily_limit_paired_trace (cfg : ServiceConfig) (d s : String) (L : Int)
    (pairs : List SendPair) (st0 : ServiceState)
    (hdl : cfg.limits.bind (·.dailyLimit) = some s) (hnb : ¬ jsTrim s = "")
    (hparse : jsBigInt? s = some L)
    (henv : ∀ pr ∈ pairs, pr.reqEnv.today = d ∧ pr.appEnv.today = d ∧
      pr.reqEnv.auditFail = false ∧ pr.appEnv.auditFail = false)
    (hnd : (pairs.map (fun pr => pr.reqEnv.newTxId)).Nodup)
    (hstart : st0.pendingItems = [])
    (hday0 : 0 ≤ dayTotal d st0.dailySpend) (hday1 : dayTotal d st0.dailySpend ≤ L) :
    sumSent (runPairs cfg pairs st0).pendingItems ≤ L := by
  have hbase : PairInv d L [] st0 := by
    refine ⟨?_, hday1, ?_⟩
    · rw [hstart]
      simpa [sumSent] using hday0
    · intro p hp
      rw [hstart] at hp
      exact absurd hp (List.not_mem_nil p)
  obtain ⟨used', hinv'⟩ := runPairs_inv cfg d s L hdl hnb hparse pairs [] st0 henv hnd
    (fun pr _ => List.not_mem_nil _) hbase
  exact le_trans hinv'.1 hinv'.2.1

def envA : Env := { envFix with newTxId := "A" }

def envB : Env := { envFix with newTxId := "B" }

def stX1 : ServiceState :=
  (requestSend cfgC9 envA stFix { toAddr := addrB, valueWei := 5 }).state

def stX2 : ServiceState :=
  (requestSend cfgC9 envB stX1 { toAddr := addrB, valueWei := 6 }).state

def stX3 : ServiceState := (approveTx cfgC9 envFix stX2 "A").state

def stX4 : ServiceState := (approveTx cfgC9 envFix stX3 "B").state

/-- C2 (counterexample): a serialized single-day trace — request 5 wei,
request 6 wei, approve both — under `dailyLimit = "10"`.  Both requests pass
the projection (the ledger still reads 0), both approvals broadcast, and the
day's `sent` total reaches 11 > 10. -/
theorem C2_counterexample :
    cfgC9.limits.bind (·.dailyLimit) = some "10" ∧ jsBigInt? "10" = some 10 ∧
    (requestSend cfgC9 envA stFix { toAddr := addrB, valueWei := 5 }).result.isOk = true ∧
    (requestSend cfgC9 envB stX1 { toAddr := addrB, valueWei := 6 }).result.isOk = true ∧
    (approveTx cfgC9 envFix stX2 "A").result = .ok (.success "0xhash1" 1) ∧
    (approveTx cfgC9 envFix stX3 "B").result = .ok (.success "0xhash1" 1) ∧
    sumSent stX4.pendingItems = 11 ∧ ¬ (11 : Int) ≤ 10 := by
  refine ⟨rfl, by rfl, by rfl, by rfl, by rfl, by rfl, by rfl, by decide⟩

def pairsW : List SendPair :=
  [{ params := { toAddr := addrB, valueWei := 5 }, reqEnv := envA, appEnv := envFix },
   { params := { toAddr := addrB, valueWei := 6 }, reqEnv := envB, appEnv := envFix }]

/-- C2 (witness of the amended theorem): the same two sends run as
request-then-approve pairs stay within the limit of 10. -/
theorem C2_witness : sumSent (runPairs cfgC9 pairsW stFix).pendingItems ≤ 10 :=
  C2_daily_limit_paired_trace cfgC9 "2026-10-11" "10" 10 pairsW stFix rfl (by decide)
    (by rfl)
    (by intro pr hpr; fin_cases hpr <;> exact ⟨rfl, rfl, rfl, rfl⟩)
    (by decide) rfl (by decide) (by decide)

end OpenclastWallet
